import Mathlib

/-!
Verification of the mentor-recommendation system: a shallow embedding of
`recommand_tutor.py` (scoring/ranking engine) and `llm_cards.py` (card
enrichment pipeline: caching, retries, fallback synthesis and validation of
generator output), together with theorems settling the specification claims.

Python strings are modelled as Lean `String` (sequences of Unicode code
points, matching Python's `str`), Python JSON-like values (`dict`/`list`/
`str`/`int`/`bool`/`None`) as the inductive type `Json`, machine floats used
by the scoring code as exact rationals (every Python float is a rational;
the specification's claims about scores are stated up to the fixed rounding
tolerance), and the natural logarithm used by the quality normalizer over `ℝ`.
-/

/- ### Python string primitives -/

/-- Whitespace characters stripped by Python's `str.strip()`. -/
def isPySpace (c : Char) : Bool :=
  c = ' ' || c = '\t' || c = '\n' || c = '\r' || c = '\x0b' || c = '\x0c'

/-- Strip `isPySpace` characters from both ends of a character list. -/
def stripChars (l : List Char) : List Char :=
  ((l.dropWhile isPySpace).reverse.dropWhile isPySpace).reverse

/-- Models Python `str.strip()` (no arguments: strips whitespace). -/
def pyStrip (s : String) : String :=
  ⟨stripChars s.data⟩

/-- Models Python `str.splitlines()` restricted to the line boundaries
`\r\n`, `\r`, `\n` (the only boundaries that occur in the texts considered
here): a trailing boundary produces no trailing empty line and the empty
string yields no lines. -/
def splitlinesChars : List Char → List Char → List String
  | [], cur => if cur.isEmpty then [] else [⟨cur.reverse⟩]
  | '\r' :: '\n' :: rest, cur => ⟨cur.reverse⟩ :: splitlinesChars rest []
  | '\r' :: rest, cur => ⟨cur.reverse⟩ :: splitlinesChars rest []
  | '\n' :: rest, cur => ⟨cur.reverse⟩ :: splitlinesChars rest []
  | c :: rest, cur => splitlinesChars rest (c :: cur)

/-- Models Python `str.splitlines()`. -/
def pySplitlines (s : String) : List String :=
  splitlinesChars s.data []

/-- Models Python `str.startswith(prefix)`. -/
def strStartsWith (s pre : String) : Bool :=
  s.data.take pre.data.length = pre.data

/-- Models `sep.join(xs)`. -/
def pyJoin (sep : String) (xs : List String) : String :=
  ⟨List.intercalate sep.data (xs.map String.data)⟩

/-- Models `.replace("\r", " ").replace("\n", " ")`. -/
def replaceNewlines (s : String) : String :=
  ⟨s.data.map (fun c => if c = '\r' then ' ' else if c = '\n' then ' ' else c)⟩

/- ### JSON-like values (Python `dict`/`list`/`str`/`int`/`bool`/`None`) -/

/-- Python JSON-like values.  Numeric literals are restricted to integers
(the payloads and generator outputs considered by the claims carry no
floating-point literals); `obj` carries its fields in insertion order with
distinct keys, like a Python `dict`. -/
inductive Json where
  | null
  | bool (b : Bool)
  | num (n : Int)
  | str (s : String)
  | arr (elems : List Json)
  | obj (fields : List (String × Json))

mutual

/-- Structural equality test on `Json`. -/
def Json.beq : Json → Json → Bool
  | .null, .null => true
  | .bool a, .bool b => a = b
  | .num a, .num b => a = b
  | .str a, .str b => a = b
  | .arr xs, .arr ys => Json.beqList xs ys
  | .obj xs, .obj ys => Json.beqFields xs ys
  | _, _ => false

/-- Equality test on lists of `Json`. -/
def Json.beqList : List Json → List Json → Bool
  | [], [] => true
  | x :: xs, y :: ys => Json.beq x y && Json.beqList xs ys
  | _, _ => false

/-- Equality test on association lists of `Json`. -/
def Json.beqFields : List (String × Json) → List (String × Json) → Bool
  | [], [] => true
  | (k, v) :: xs, (k₂, v₂) :: ys => k = k₂ && Json.beq v v₂ && Json.beqFields xs ys
  | _, _ => false

end

mutual

theorem Json.beq_iff : ∀ a b : Json, Json.beq a b = true ↔ a = b
  | .null, .null => by simp [Json.beq]
  | .bool a, .bool b => by simp [Json.beq]
  | .num a, .num b => by simp [Json.beq]
  | .str a, .str b => by simp [Json.beq]
  | .arr xs, .arr ys => by simp [Json.beq, Json.beqList_iff xs ys]
  | .obj xs, .obj ys => by simp [Json.beq, Json.beqFields_iff xs ys]
  | .null, .bool _ | .null, .num _ | .null, .str _ | .null, .arr _ | .null, .obj _
  | .bool _, .null | .bool _, .num _ | .bool _, .str _ | .bool _, .arr _ | .bool _, .obj _
  | .num _, .null | .num _, .bool _ | .num _, .str _ | .num _, .arr _ | .num _, .obj _
  | .str _, .null | .str _, .bool _ | .str _, .num _ | .str _, .arr _ | .str _, .obj _
  | .arr _, .null | .arr _, .bool _ | .arr _, .num _ | .arr _, .str _ | .arr _, .obj _
  | .obj _, .null | .obj _, .bool _ | .obj _, .num _ | .obj _, .str _ | .obj _, .arr _ =>
      by simp [Json.beq]

theorem Json.beqList_iff : ∀ xs ys : List Json, Json.beqList xs ys = true ↔ xs = ys
  | [], [] => by simp [Json.beqList]
  | [], _ :: _ => by simp [Json.beqList]
  | _ :: _, [] => by simp [Json.beqList]
  | x :: xs, y :: ys => by
      simp [Json.beqList, Json.beq_iff x y, Json.beqList_iff xs ys]

theorem Json.beqFields_iff :
    ∀ xs ys : List (String × Json), Json.beqFields xs ys = true ↔ xs = ys
  | [], [] => by simp [Json.beqFields]
  | [], _ :: _ => by simp [Json.beqFields]
  | _ :: _, [] => by simp [Json.beqFields]
  | (k, v) :: xs, (k₂, v₂) :: ys => by
      simp [Json.beqFields, Json.beq_iff v v₂, Json.beqFields_iff xs ys, and_assoc]

end

instance : DecidableEq Json := fun a b => decidable_of_iff _ (Json.beq_iff a b)

instance {ε α : Type} [DecidableEq ε] [DecidableEq α] : DecidableEq (Except ε α) :=
  fun a b =>
    match a, b with
    | .ok x, .ok y => decidable_of_iff (x = y) (by simp)
    | .error e, .error f => decidable_of_iff (e = f) (by simp)
    | .ok _, .error _ => isFalse (by simp)
    | .error _, .ok _ => isFalse (by simp)

/-- Keys of a `dict`, in insertion order. -/
def Json.objKeys : Json → List String
  | .obj fields => fields.map Prod.fst
  | _ => []

/-- Generic association-list lookup. -/
def assocFind {β : Type} (m : List (String × β)) (key : String) : Option β :=
  (m.find? (fun e => e.1 = key)).map Prod.snd

/-- Generic association-list update with `dict` semantics: an existing key
keeps its position and gets the new value, a new key is appended. -/
def assocInsert {β : Type} (m : List (String × β)) (key : String) (v : β) :
    List (String × β) :=
  if m.any (fun e => e.1 = key) then m.map (fun e => if e.1 = key then (key, v) else e)
  else m ++ [(key, v)]

/-- Field lookup in a `dict` value (`card.get(key)` / `card[key]`). -/
def Json.lookup (j : Json) (key : String) : Option Json :=
  match j with
  | .obj fields => assocFind fields key
  | _ => none

/-- `d[key] = v` on the fields of a `dict` value. -/
def fieldsInsert (fields : List (String × Json)) (key : String) (v : Json) :
    List (String × Json) :=
  assocInsert fields key v

/-- `d[key] = v` on a `dict` value (non-`dict` values are left unchanged). -/
def Json.objSet (j : Json) (key : String) (v : Json) : Json :=
  match j with
  | .obj fields => .obj (fieldsInsert fields key v)
  | other => other

/-- Models Python `str(x)` on JSON-like values (on the `list`/`dict` cases a
bracketed rendering stands in for Python's `repr`-based form; those cases
never occur as `mentor_id` values in the pipeline). -/
def pyStr : Json → String
  | .null => "None"
  | .bool true => "True"
  | .bool false => "False"
  | .num n => toString n
  | .str s => s
  | .arr _ => "[...]"
  | .obj _ => "\x7b...\x7d"

/-- Python truthiness of a JSON-like value (`bool(x)`). -/
def pyTruthy : Json → Bool
  | .null => false
  | .bool b => b
  | .num n => n ≠ 0
  | .str s => s ≠ ""
  | .arr xs => ¬xs.isEmpty
  | .obj fs => ¬fs.isEmpty

/- ### Strict JSON decoding (`json.loads`) -/

/-- JSON insignificant whitespace. -/
def isJsonWs (c : Char) : Bool :=
  c = ' ' || c = '\t' || c = '\n' || c = '\r'

/-- Skip JSON whitespace. -/
def skipJsonWs (l : List Char) : List Char :=
  l.dropWhile isJsonWs

/-- Digits of a decimal literal to a natural number. -/
def digitsToNat (ds : List Char) : Nat :=
  ds.foldl (fun acc c => acc * 10 + (c.toNat - '0'.toNat)) 0

mutual

/-- One JSON value, returning the unconsumed rest.  Models the grammar
accepted by Python's strict `json.loads` on the fragment used here: objects,
arrays, double-quoted strings without escape sequences, integer numerals
(no fraction/exponent), `true`, `false`, `null`.  The fuel argument bounds
recursion depth and is chosen large enough to be irrelevant. -/
def parseJsonValue : Nat → List Char → Except String (Json × List Char)
  | 0, _ => .error "Recursion exhausted."
  | fuel + 1, l =>
    match skipJsonWs l with
    | [] => .error "Expecting value"
    | c :: rest =>
      if c = '{' then
        parseJsonMembers fuel rest true []
      else if c = '[' then
        parseJsonElements fuel rest true []
      else if c = '"' then
        match parseJsonString fuel rest [] with
        | .ok (s, rest') => .ok (.str s, rest')
        | .error e => .error e
      else if c = 't' then
        match rest with
        | 'r' :: 'u' :: 'e' :: rest' => .ok (.bool true, rest')
        | _ => .error "Expecting value"
      else if c = 'f' then
        match rest with
        | 'a' :: 'l' :: 's' :: 'e' :: rest' => .ok (.bool false, rest')
        | _ => .error "Expecting value"
      else if c = 'n' then
        match rest with
        | 'u' :: 'l' :: 'l' :: rest' => .ok (.null, rest')
        | _ => .error "Expecting value"
      else if c = '-' then
        match rest.takeWhile Char.isDigit, rest.dropWhile Char.isDigit with
        | [], _ => .error "Expecting value"
        | d :: ds, rest' =>
          if d = '0' ∧ ds ≠ [] then .error "Expecting value"
          else .ok (.num (-(digitsToNat (d :: ds) : Int)), rest')
      else if c.isDigit then
        match (c :: rest).takeWhile Char.isDigit, (c :: rest).dropWhile Char.isDigit with
        | [], _ => .error "Expecting value"
        | d :: ds, rest' =>
          if d = '0' ∧ ds ≠ [] then .error "Expecting value"
          else .ok (.num (digitsToNat (d :: ds) : Int), rest')
      else .error "Expecting value"

/-- Object members after the opening brace; `first` is true before the first
member.  Duplicate keys follow `dict` semantics (last value wins). -/
def parseJsonMembers (fuel : Nat) (l : List Char) (first : Bool)
    (acc : List (String × Json)) : Except String (Json × List Char) :=
  match fuel with
  | 0 => .error "Recursion exhausted."
  | fuel + 1 =>
    match skipJsonWs l with
    | [] => .error "Unterminated object"
    | c :: rest =>
      if c = '}' ∧ first then .ok (.obj acc, rest)
      else
        let afterComma : Except String (List Char) :=
          if first then .ok (c :: rest)
          else if c = ',' then .ok (skipJsonWs rest)
          else if c = '}' then .ok ([] : List Char)
          else .error "Expecting comma"
        match afterComma with
        | .error e => .error e
        | .ok [] =>
          if c = '}' then .ok (.obj acc, rest) else .error "Unterminated object"
        | .ok (q :: keyRest) =>
          if q = '"' then
            match parseJsonString fuel keyRest [] with
            | .error e => .error e
            | .ok (key, afterKey) =>
              match skipJsonWs afterKey with
              | ':' :: afterColon =>
                match parseJsonValue fuel afterColon with
                | .error e => .error e
                | .ok (v, afterVal) =>
                  parseJsonMembers fuel afterVal false (fieldsInsert acc key v)
              | _ => .error "Expecting colon"
          else .error "Expecting property name"

/-- Array elements after the opening bracket. -/
def parseJsonElements (fuel : Nat) (l : List Char) (first : Bool)
    (acc : List Json) : Except String (Json × List Char) :=
  match fuel with
  | 0 => .error "Recursion exhausted."
  | fuel + 1 =>
    match skipJsonWs l with
    | [] => .error "Unterminated array"
    | c :: rest =>
      if c = ']' ∧ first then .ok (.arr acc.reverse, rest)
      else if ¬first ∧ c = ']' then .ok (.arr acc.reverse, rest)
      else if ¬first ∧ c ≠ ',' then .error "Expecting comma"
      else
        let body := if first then c :: rest else rest
        match parseJsonValue fuel body with
        | .error e => .error e
        | .ok (v, afterVal) => parseJsonElements fuel afterVal false (v :: acc)

/-- Characters of a string literal after the opening quote (escape sequences
are not part of the modelled fragment and are rejected). -/
def parseJsonString (fuel : Nat) (l : List Char) (acc : List Char) :
    Except String (String × List Char) :=
  match fuel with
  | 0 => .error "Recursion exhausted."
  | fuel + 1 =>
    match l with
    | [] => .error "Unterminated string"
    | c :: rest =>
      if c = '"' then .ok (⟨acc.reverse⟩, rest)
      else if c = '\\' then .error "Escape sequences unsupported"
      else if c.toNat < 32 then .error "Invalid control character"
      else parseJsonString fuel rest (c :: acc)

end

/-- Models Python `json.loads` on the fragment described at
`parseJsonValue`: decode one value and require only whitespace after it. -/
def json_loads (s : String) : Except String Json :=
  match parseJsonValue (2 * s.length + 16) s.data with
  | .error e => .error e
  | .ok (v, rest) =>
    if skipJsonWs rest = [] then .ok v else .error "Extra data"

/- ### llm_cards.py -/

/-- Models `_strip_code_fence`: strip the text; when it starts with a code
fence, drop a leading fence line and a trailing bare-fence line, re-join
with newlines and strip again. -/
def _strip_code_fence (text : String) : String :=
  let value := pyStrip text
  if strStartsWith value "```" then
    let lines := pySplitlines value
    let lines₁ :=
      match lines with
      | first :: rest => if strStartsWith first "```" then rest else lines
      | [] => lines
    let lines₂ :=
      match lines₁.getLast? with
      | some last => if pyStrip last = "```" then lines₁.dropLast else lines₁
      | none => lines₁
    pyStrip (pyJoin "\n" lines₂)
  else value

/-- Models `_extract_json_object`: strict decode of the fence-stripped text;
on failure, retry on the substring from the first `{` (`cleaned.find`) to
the last `}` (`cleaned.rfind`); a decoded non-`dict` value is an error. -/
def _extract_json_object (text : String) : Except String Json :=
  let cleaned := _strip_code_fence text
  let decoded : Except String Json :=
    match json_loads cleaned with
    | .ok obj => .ok obj
    | .error _ =>
      let start := cleaned.data.findIdx? (· = '{')
      let stop :=
        match cleaned.data.reverse.findIdx? (· = '}') with
        | some i => some (cleaned.length - 1 - i)
        | none => none
      match start, stop with
      | some s, some e =>
        if e ≤ s then .error "No JSON object found in model output."
        else json_loads ⟨(cleaned.data.drop s).take (e + 1 - s)⟩
      | _, _ => .error "No JSON object found in model output."
  match decoded with
  | .error e => .error e
  | .ok o =>
    match o with
    | .obj fields => .ok (.obj fields)
    | _ => .error "Model output is not a JSON object."

/-- Scan for the matching close brace of a span opened by the head
character; `depth` counts the braces currently open. -/
def balancedScan : List Char → Nat → List Char → Option (List Char)
  | [], _, _ => none
  | c :: rest, depth, acc =>
    if c = '{' then balancedScan rest (depth + 1) (c :: acc)
    else if c = '}' then
      if depth = 1 then some (c :: acc).reverse else balancedScan rest (depth - 1) (c :: acc)
    else balancedScan rest depth (c :: acc)

/-- The first balanced `{...}` span of a string, when one exists. -/
def firstBalancedSpan (s : String) : Option String :=
  match s.data.findIdx? (· = '{') with
  | none => none
  | some i =>
    match balancedScan (s.data.drop i) 0 [] with
    | some span => some ⟨span⟩
    | none => none

/-- Follows the specification's words for the parse fallback (to be compared
with `_extract_json_object`, which is translated from the source): strict
decode first, then retry the decode on the first balanced `{...}` span, and
fail on a non-object. -/
def extractJsonObjectPerSpec (text : String) : Except String Json :=
  let cleaned := _strip_code_fence text
  let decoded : Except String Json :=
    match json_loads cleaned with
    | .ok obj => .ok obj
    | .error _ =>
      match firstBalancedSpan cleaned with
      | some span => json_loads span
      | none => .error "No JSON object found in model output."
  match decoded with
  | .error e => .error e
  | .ok o =>
    match o with
    | .obj fields => .ok (.obj fields)
    | _ => .error "Model output is not a JSON object."

/-- Models `_trim_one_line_reason`: `str(value or "")` with line breaks
replaced by spaces, stripped, and truncated to 35 characters (re-stripped
after truncation). -/
def _trim_one_line_reason (value : Json) : String :=
  let text := pyStrip (replaceNewlines (pyStr (if pyTruthy value then value else .str "")))
  if 35 < text.length then pyStrip ⟨text.data.take 35⟩ else text

/-- The fixed generic one-line reason used by the fallback card and for an
empty trimmed reason. -/
def genericReason : String := "겹치는 태그 기반 추천"

/-- The fixed marker prefixed to each fallback caution point. -/
def cautionMarker : String := "보완: "

/-- The validator payload fields consumed by `_validate_card` and
`_fallback_card` (assembled per ranked candidate in `recommand_tutor.main`,
where all five fields are lists of canonical tag strings except the id). -/
structure Validator where
  mentor_id : Json
  overlap_topics : List String
  overlap_stacks : List String
  U_topics : List String
  M_topics : List String
deriving DecidableEq

/-- Models Python `sorted(...)` on strings (code-point lexicographic). -/
def pySortStrings (l : List String) : List String :=
  l.mergeSort (fun a b => a ≤ b)

/-- Models `sorted(set(l))`: the distinct elements in ascending order. -/
def sortedSet (l : List String) : List String :=
  pySortStrings l.dedup

/-- The card `dict` literal shared by `_fallback_card` and `_validate_card`:
the four required fields in their literal order. -/
def mkCard (mid : Json) (r : String) (tags cautions : List String) : Json :=
  .obj [("mentor_id", mid),
        ("one_line_reason", .str r),
        ("overlap_tags", .arr (tags.map .str)),
        ("caution_points", .arr (cautions.map .str))]

/-- Models `_fallback_card`: deterministic card from the validator payload
alone — generic reason, first 6 of (overlap topics + overlap stacks), first
3 sorted user topics missing from the mentor's topics, each marker-prefixed. -/
def _fallback_card (validator : Validator) : Json :=
  let overlap_tags := (validator.overlap_topics ++ validator.overlap_stacks).take 6
  let missing :=
    (sortedSet (validator.U_topics.filter (fun t => t ∉ validator.M_topics))).take 3
  let caution_points := missing.map (fun tag => cautionMarker ++ tag)
  mkCard validator.mentor_id genericReason overlap_tags caution_points

/-- The four required card fields. -/
def requiredCardKeys : List String :=
  ["mentor_id", "one_line_reason", "overlap_tags", "caution_points"]

/-- Models `_validate_card`: a candidate must be a `dict` with the four
required keys and a `mentor_id` whose `str` form equals the validator's;
the reason is trimmed (generic string if empty), `overlap_tags` must be a
list and is filtered to strings in the validator's true overlap union then
capped at 6, `caution_points` must be a list and is filtered to non-empty
stripped strings. -/
def _validate_card (card : Json) (validator : Validator) : Except String Json :=
  match card with
  | .obj fields =>
    if requiredCardKeys.all (fun k => ((Json.obj fields).lookup k).isSome) then
      let mid := ((Json.obj fields).lookup "mentor_id").getD .null
      if pyStr mid ≠ pyStr validator.mentor_id then .error "mentor_id mismatch."
      else
        let reason₀ :=
          _trim_one_line_reason (((Json.obj fields).lookup "one_line_reason").getD .null)
        let reason := if reason₀ = "" then genericReason else reason₀
        let allowed := validator.overlap_topics ++ validator.overlap_stacks
        match ((Json.obj fields).lookup "overlap_tags").getD .null with
        | .arr provided =>
          let overlap_tags := (provided.filterMap (fun tag =>
            match tag with
            | .str s => if s ∈ allowed then some s else none
            | _ => none)).take 6
          match ((Json.obj fields).lookup "caution_points").getD .null with
          | .arr cautionItems =>
            let cautions := cautionItems.filterMap (fun x =>
              match x with
              | .str s => if pyStrip s ≠ "" then some (pyStrip s) else none
              | _ => none)
            .ok (mkCard validator.mentor_id reason overlap_tags cautions)
          | _ => .error "caution_points must be a list."
        | _ => .error "overlap_tags must be a list."
    else .error "Missing required keys"
  | _ => .error "Card must be a dict JSON."

/-- One entry of `top5_card_prompts`. -/
structure PromptItem where
  mentor_id : Json
  prompt_for_llm : String
deriving DecidableEq

/-- Shared pipeline state: the on-disk card cache (one file per
fingerprint) and the number of external generator HTTP calls issued. -/
structure FillState where
  cache : List (String × Json)
  calls : Nat
deriving DecidableEq

/-- Models `hashlib.sha256(prompt.encode("utf-8")).hexdigest()`: a
deterministic content fingerprint of the prompt text, collision-free on the
prompts considered, so the text itself serves as the digest. -/
def fingerprint (prompt : String) : String := prompt

/-- Models `_load_cached_card`: a missing file is a miss, and any decode or
validation failure of the cached payload is swallowed into a miss. -/
def _load_cached_card (cache : List (String × Json)) (key : String)
    (validator : Validator) : Option Json :=
  match assocFind cache key with
  | none => none
  | some cached =>
    match _validate_card cached validator with
    | .ok c => some c
    | .error _ => none

/-- The credential error raised by `_call_gemini_http` and by the
`fill_cards` pre-check. -/
def missingKeyError : String :=
  "GEMINI_API_KEY (or GOOGLE_API_KEY) is not set. --fill-cards cannot run."

/-- The retry loop body of `_fill_one`.  The generator oracle `gen` gives
the outcome of each external HTTP call (`raw text` or a transport error);
`api_key` models whether `GEMINI_API_KEY`/`GOOGLE_API_KEY` is set (checked
by `_call_gemini_http` before the request, so a missing key is an attempt
failure that issues no call); an unsupported provider likewise fails the
attempt before any call.  Returns the validated card on success, the state
(with its call count and cache), and the last error message. -/
def attemptLoop (provider : String) (api_key : Bool)
    (gen : Nat → Except String String) (validator : Validator) (key : String) :
    Nat → Nat → FillState → Option String → Option Json × FillState × Option String
  | _, 0, st, lastExc => (none, st, lastExc)
  | i, remaining + 1, st, _ =>
    if provider ≠ "gemini_http" then
      attemptLoop provider api_key gen validator key (i + 1) remaining st
        (some ("Unsupported llm provider: " ++ provider))
    else if ¬api_key then
      attemptLoop provider api_key gen validator key (i + 1) remaining st
        (some missingKeyError)
    else
      let st₁ := { st with calls := st.calls + 1 }
      match gen i with
      | .error e => attemptLoop provider api_key gen validator key (i + 1) remaining st₁ (some e)
      | .ok raw =>
        match _extract_json_object raw with
        | .error e =>
          attemptLoop provider api_key gen validator key (i + 1) remaining st₁ (some e)
        | .ok parsed =>
          match _validate_card parsed validator with
          | .error e =>
            attemptLoop provider api_key gen validator key (i + 1) remaining st₁ (some e)
          | .ok valid =>
            (some valid, { st₁ with cache := assocInsert st₁.cache key valid }, none)

/-- Models `_fill_one`: cache lookup with re-validation first (a clean hit
returns without any external call); otherwise up to `1 + max(0, retry)`
attempts; if all fail, the clean fallback card is persisted to the cache,
then the last error message is attached to the returned card and its
`mentor_id` is overwritten with the prompt item's.  (The per-fingerprint
lock acquisitions around the cache accesses are modelled separately for the
concurrency claim; in this sequential model they are no-ops.) -/
def _fill_one (prompt_item : PromptItem) (validator : Validator) (provider : String)
    (api_key : Bool) (gen : Nat → Except String String) (retry : Int)
    (st : FillState) : Json × FillState :=
  let key := fingerprint prompt_item.prompt_for_llm
  match _load_cached_card st.cache key validator with
  | some cached => (cached, st)
  | none =>
    let attempts := 1 + (max 0 retry).toNat
    match attemptLoop provider api_key gen validator key 0 attempts st none with
    | (some valid, st', _) => (valid, st')
    | (none, st', lastExc) =>
      let fallback := _fallback_card validator
      let st'' := { st' with cache := assocInsert st'.cache key fallback }
      let withErr :=
        match lastExc with
        | some e => fallback.objSet "error" (.str e)
        | none => fallback
      (withErr.objSet "mentor_id" prompt_item.mentor_id, st'')

/-- The job list built by `fill_cards` before any work is scheduled: pairs
each prompt with the validator found for its mentor id, failing on the
first prompt whose id has no validator. -/
def buildJobs (prompts : List PromptItem)
    (validators_by_id : List (String × Validator)) :
    Except String (List (PromptItem × Validator)) :=
  match prompts with
  | [] => .ok []
  | item :: rest =>
    match assocFind validators_by_id (pyStr item.mentor_id) with
    | none => .error ("validator payload missing for mentor_id=" ++ pyStr item.mentor_id)
    | some v =>
      match buildJobs rest validators_by_id with
      | .error e => .error e
      | .ok jobs => .ok ((item, v) :: jobs)

/-- Models `fill_cards`.  Configuration checks (credentials for the
`gemini_http` provider, equal list lengths, a validator for every prompt's
mentor id) run before any job; then the worker pool executes `_fill_one`
once per job.  Nondeterminism of the pool is modelled explicitly: the jobs
run atomically in the completion order `completionOrder` (the order
`as_completed` yields them), each job `j` uses the generator oracle
`gens j`, and `crash j = some e` models a worker that throws unexpectedly
outside the retry loop, whose slot the except-branch fills with a fallback
card.  Results are keyed by mentor id and re-assembled in request order. -/
def fill_cards (top5_card_prompts : List PromptItem)
    (validator_payloads : List Validator) (provider : String) (api_key : Bool)
    (gens : Nat → Nat → Except String String) (crash : Nat → Option String)
    (retry : Int) (completionOrder : List Nat) (st₀ : FillState) :
    Except String (List Json) × FillState :=
  if provider = "gemini_http" ∧ ¬api_key then
    (.error missingKeyError, st₀)
  else if top5_card_prompts.length ≠ validator_payloads.length then
    (.error "top5_card_prompts and validator_payloads length mismatch.", st₀)
  else
    let validators_by_id : List (String × Validator) :=
      validator_payloads.foldl (fun m v => assocInsert m (pyStr v.mentor_id) v) []
    let ordered_ids := top5_card_prompts.map (fun item => pyStr item.mentor_id)
    match buildJobs top5_card_prompts validators_by_id with
    | .error e => (.error e, st₀)
    | .ok jobs =>
      let final := completionOrder.foldl
        (fun (acc : List (String × Json) × FillState) j =>
          match jobs.get? j with
          | none => acc
          | some (item, validator) =>
            let mid := pyStr item.mentor_id
            match crash j with
            | some _ =>
              let fb :=
                match assocFind validators_by_id mid with
                | some v => _fallback_card v
                | none => Json.null
              (assocInsert acc.1 mid fb, acc.2)
            | none =>
              let r := _fill_one item validator provider api_key (gens j) retry acc.2
              (assocInsert acc.1 mid r.1, r.2))
        ([], st₀)
      (.ok (ordered_ids.map (fun mid => (assocFind final.1 mid).getD Json.null)), final.2)

/- ### recommand_tutor.py: scoring engine -/

/-- Models `clamp_0_1` on the exact rational score values. -/
def clamp_0_1 (value : ℚ) : ℚ := max 0 (min 1 value)

/-- `clamp_0_1` over the reals, as used by the quality normalizer. -/
noncomputable def clamp01R (value : ℝ) : ℝ := max 0 (min 1 value)

/-- Models `compute_quality`: `0.5` when the cohort maximum engagement
count is not positive, otherwise the clamped ratio
`log1p(max(0, mentoring_count)) / log1p(cohort_max)`. -/
noncomputable def compute_quality (mentoring_count : ℤ) (cohort_max : ℤ) : ℝ :=
  if cohort_max ≤ 0 then 0.5
  else clamp01R (Real.log (1 + (max 0 mentoring_count : ℤ)) / Real.log (1 + (cohort_max : ℝ)))

/-- The `Mentor` dataclass.  Tag sets are finite sets of canonical tag
strings; `quality` is the float stored by `build_mentor_models`, an exact
rational. -/
structure Mentor where
  mentor_id : ℤ
  name : String
  company : String
  price : ℤ
  mentoring_count : ℤ
  «stacks» : Finset String
  topics : Finset String
  quality : ℚ
deriving DecidableEq

/-- One ranked-candidate entry produced by `recommend_top_n`. -/
structure ScoredMentor where
  mentor_id : ℤ
  mentor_name : String
  company : String
  price : ℤ
  mentoring_count : ℤ
  total_score : ℚ
  topicMatch : ℚ
  stackMatch : ℚ
  quality : ℚ
  overlap_topics : List String
  overlap_stacks : List String
deriving DecidableEq

/-- Models `round(x, 6)` on the exact rational values (round-half-up on
exact rationals; Python's round-half-even on binary floats agrees within
the fixed `1e-6` serialization tolerance the claims allow). -/
def round6 (x : ℚ) : ℚ := (round (x * 1000000) : ℤ) / 1000000

/-- The per-mentor body of the `recommend_top_n` loop. -/
def scoreMentor (user_topics user_stacks : Finset String)
    (w_topic w_stack w_quality : ℚ) (mentor : Mentor) : ScoredMentor :=
  let topic_den : ℚ := max 1 (user_topics.card : ℚ)
  let stack_den : ℚ := max 1 (user_stacks.card : ℚ)
  let overlap_topics := (user_topics ∩ mentor.topics).sort (· ≤ ·)
  let overlap_stacks := (user_stacks ∩ mentor.«stacks»).sort (· ≤ ·)
  let topic_match : ℚ := (overlap_topics.length : ℚ) / topic_den
  let stack_match : ℚ := (overlap_stacks.length : ℚ) / stack_den
  let quality := clamp_0_1 mentor.quality
  let total := w_topic * topic_match + w_stack * stack_match + w_quality * quality
  { mentor_id := mentor.mentor_id, mentor_name := mentor.name,
    company := mentor.company, price := mentor.price,
    mentoring_count := mentor.mentoring_count,
    total_score := round6 total, topicMatch := round6 topic_match,
    stackMatch := round6 stack_match, quality := round6 quality,
    overlap_topics := overlap_topics, overlap_stacks := overlap_stacks }

/-- The sort key ordering of `results.sort(key=lambda x: (-x["total_score"],
-x["quality"], x["mentor_id"]))`: descending total score, then descending
quality, then ascending mentor id. -/
def rankLE (a b : ScoredMentor) : Prop :=
  b.total_score < a.total_score ∨
    (a.total_score = b.total_score ∧
      (b.quality < a.quality ∨ (a.quality = b.quality ∧ a.mentor_id ≤ b.mentor_id)))

instance (a b : ScoredMentor) : Decidable (rankLE a b) := by
  unfold rankLE; infer_instance

/-- Models `recommend_top_n`: score every mentor, stable-sort by the rank
key, truncate to the top `n`. -/
def recommend_top_n (user_topics user_stacks : Finset String) (mentors : List Mentor)
    (n : Nat) (w_topic w_stack w_quality : ℚ) : List ScoredMentor :=
  let results := mentors.map (scoreMentor user_topics user_stacks w_topic w_stack w_quality)
  (results.mergeSort (fun a b => decide (rankLE a b))).take n

/- ### Per-fingerprint locking in `_fill_one` (concurrency model) -/

/-- Two workers running `_fill_one` for the same prompt fingerprint, hence
contending for the same per-key lock and cache file.  Program counters map
to the source: 0 acquire (`with lock:`, line 213), 1 cache check (line 214;
a hit moves to 8, a miss to 2), 2 release (leaving the `with` block),
3 the external generator call (line 224, outside any lock), 4 re-acquire
(`with lock:`, line 227), 5 cache write (line 228), 6 release, 7 done;
8 release after a hit, 9 done serving the cached entry. -/
structure LockState where
  lockHolder : Option Bool
  pcA : Nat
  pcB : Nat
  cacheFilled : Bool
  calls : Nat
deriving DecidableEq

/-- Program counters at which a worker holds the per-fingerprint lock. -/
def holdsLock (pc : Nat) : Bool :=
  pc = 1 || pc = 2 || pc = 5 || pc = 6 || pc = 8

/-- One atomic step of worker `w` (`false` for A, `true` for B): `none` when
the worker is blocked on the lock or already done. -/
def lockStep (s : LockState) (w : Bool) : Option LockState :=
  let pc := if w then s.pcB else s.pcA
  let setPc (s' : LockState) (p : Nat) : LockState :=
    if w then { s' with pcB := p } else { s' with pcA := p }
  if pc = 0 then
    match s.lockHolder with
    | none => some (setPc { s with lockHolder := some w } 1)
    | some _ => none
  else if pc = 1 then
    some (setPc s (if s.cacheFilled then 8 else 2))
  else if pc = 2 then
    some (setPc { s with lockHolder := none } 3)
  else if pc = 3 then
    some (setPc { s with calls := s.calls + 1 } 4)
  else if pc = 4 then
    match s.lockHolder with
    | none => some (setPc { s with lockHolder := some w } 5)
    | some _ => none
  else if pc = 5 then
    some (setPc { s with cacheFilled := true } 6)
  else if pc = 6 then
    some (setPc { s with lockHolder := none } 7)
  else if pc = 8 then
    some (setPc { s with lockHolder := none } 9)
  else none

/-- Run a schedule (the sequence of workers the scheduler picks). -/
def lockRun : List Bool → LockState → Option LockState
  | [], s => some s
  | w :: rest, s =>
    match lockStep s w with
    | none => none
    | some s' => lockRun rest s'

/-- Both workers at their entry point, lock free, cache cold. -/
def lockInit : LockState :=
  { lockHolder := none, pcA := 0, pcB := 0, cacheFilled := false, calls := 0 }

/- ### Properties of the string primitives -/

theorem dropWhile_idem (p : Char → Bool) (l : List Char) :
    (l.dropWhile p).dropWhile p = l.dropWhile p := by
  induction l with
  | nil => rfl
  | cons c t ih =>
    by_cases h : p c
    · simp only [List.dropWhile_cons, h, if_true]
      exact ih
    · simp [List.dropWhile_cons, h]

theorem head_dropWhile_false (p : Char → Bool) (l : List Char) {c : Char}
    {t : List Char} (h : l.dropWhile p = c :: t) : p c = false := by
  induction l with
  | nil => simp at h
  | cons a l ih =>
    by_cases hp : p a
    · rw [List.dropWhile_cons, if_pos hp] at h
      exact ih h
    · rw [List.dropWhile_cons, if_neg hp] at h
      cases h
      simpa using hp

theorem prefix_dropWhile_eq_self {p : Char → Bool} {x y : List Char}
    (hpre : x <+: y) (hy : y.dropWhile p = y) : x.dropWhile p = x := by
  cases x with
  | nil => rfl
  | cons c t =>
    obtain ⟨rest, rfl⟩ := hpre
    rw [List.cons_append, List.dropWhile_cons] at hy
    by_cases hp : p c
    · rw [if_pos hp] at hy
      have hlen := congrArg List.length hy
      rw [List.length_cons] at hlen
      have hle := (@List.dropWhile_sublist _ (t ++ rest) p).length_le
      omega
    · rw [List.dropWhile_cons, if_neg hp]

theorem stripChars_idem (l : List Char) : stripChars (stripChars l) = stripChars l := by
  unfold stripChars
  have haa : (l.dropWhile isPySpace).dropWhile isPySpace = l.dropWhile isPySpace :=
    dropWhile_idem ..
  have hsplit :
      (l.dropWhile isPySpace).reverse.takeWhile isPySpace ++
        (l.dropWhile isPySpace).reverse.dropWhile isPySpace =
        (l.dropWhile isPySpace).reverse :=
    List.takeWhile_append_dropWhile ..
  have ha2 : l.dropWhile isPySpace =
      ((l.dropWhile isPySpace).reverse.dropWhile isPySpace).reverse ++
        ((l.dropWhile isPySpace).reverse.takeWhile isPySpace).reverse := by
    have h := congrArg List.reverse hsplit
    rw [List.reverse_append, List.reverse_reverse] at h
    exact h.symm
  have h1 : ((l.dropWhile isPySpace).reverse.dropWhile isPySpace).reverse.dropWhile isPySpace
      = ((l.dropWhile isPySpace).reverse.dropWhile isPySpace).reverse :=
    prefix_dropWhile_eq_self ⟨_, ha2.symm⟩ haa
  have h2 : ((l.dropWhile isPySpace).reverse.dropWhile isPySpace).dropWhile isPySpace
      = (l.dropWhile isPySpace).reverse.dropWhile isPySpace :=
    dropWhile_idem ..
  rw [h1, List.reverse_reverse, h2]

theorem pyStrip_idem (s : String) : pyStrip (pyStrip s) = pyStrip s := by
  unfold pyStrip
  exact congrArg String.mk (stripChars_idem s.data)

theorem stripChars_subset {c : Char} {l : List Char} (h : c ∈ stripChars l) : c ∈ l := by
  unfold stripChars at h
  rw [List.mem_reverse] at h
  have h₂ := (List.dropWhile_sublist _).subset h
  rw [List.mem_reverse] at h₂
  exact (List.dropWhile_sublist _).subset h₂

theorem length_stripChars_le (l : List Char) : (stripChars l).length ≤ l.length := by
  unfold stripChars
  calc ((l.dropWhile isPySpace).reverse.dropWhile isPySpace).reverse.length
      ≤ (l.dropWhile isPySpace).reverse.length := by
        rw [List.length_reverse]
        exact (List.dropWhile_sublist _).length_le
    _ ≤ l.length := by
        rw [List.length_reverse]
        exact (List.dropWhile_sublist _).length_le

/-- The string contains no carriage return and no line feed. -/
def noNewlines (s : String) : Prop := ∀ c ∈ s.data, c ≠ '\r' ∧ c ≠ '\n'

theorem replaceNewlines_eq_self {s : String} (h : noNewlines s) :
    replaceNewlines s = s := by
  unfold replaceNewlines
  have hmap : s.data.map (fun c => if c = '\r' then ' ' else if c = '\n' then ' ' else c)
      = s.data.map id := by
    refine List.map_congr_left fun c hc => ?_
    obtain ⟨h₁, h₂⟩ := h c hc
    simp [h₁, h₂]
  rw [hmap, List.map_id]

theorem replaceNewlines_noNewlines (s : String) : noNewlines (replaceNewlines s) := by
  intro c hc
  unfold replaceNewlines at hc
  simp only [List.mem_map] at hc
  obtain ⟨a, _, rfl⟩ := hc
  by_cases h₁ : a = '\r'
  · simp [h₁]
  · by_cases h₂ : a = '\n'
    · simp [h₁, h₂]
    · simp [h₁, h₂]

theorem noNewlines_pyStrip {s : String} (h : noNewlines s) : noNewlines (pyStrip s) :=
  fun c hc => h c (stripChars_subset hc)

theorem noNewlines_take {s : String} (n : Nat) (h : noNewlines s) :
    noNewlines (⟨s.data.take n⟩ : String) :=
  fun c hc => h c (List.take_subset n s.data hc)

theorem pyStrip_length_le (s : String) : (pyStrip s).length ≤ s.length :=
  length_stripChars_le s.data

/-- A string with a non-whitespace character strips to a non-empty string. -/
theorem pyStrip_ne_empty {s : String} {c : Char} (hc : c ∈ s.data)
    (hns : isPySpace c = false) : pyStrip s ≠ "" := by
  have hmem : c ∈ stripChars s.data := by
    unfold stripChars
    rw [List.mem_reverse]
    have maux : ∀ l : List Char, c ∈ l → c ∈ l.dropWhile isPySpace := by
      intro l
      induction l with
      | nil => simp
      | cons a t ih =>
        intro hmem
        by_cases hp : isPySpace a
        · rw [List.dropWhile_cons, if_pos hp]
          rcases List.mem_cons.1 hmem with rfl | hmem'
          · rw [hns] at hp; cases hp
          · exact ih hmem'
        · rw [List.dropWhile_cons, if_neg hp]
          exact hmem
    refine maux _ ?_
    rw [List.mem_reverse]
    exact maux _ hc
  intro hempty
  rw [show ("" : String) = ⟨[]⟩ from rfl] at hempty
  have : stripChars s.data = [] := congrArg String.data hempty
  rw [this] at hmem
  cases hmem

/- ### Properties of card validation -/

theorem trim_props (x : Json) :
    noNewlines (_trim_one_line_reason x) ∧
    pyStrip (_trim_one_line_reason x) = _trim_one_line_reason x ∧
    (_trim_one_line_reason x).length ≤ 35 := by
  unfold _trim_one_line_reason
  dsimp only
  have hb : noNewlines (pyStrip (replaceNewlines (pyStr (if pyTruthy x then x else .str "")))) :=
    noNewlines_pyStrip (replaceNewlines_noNewlines _)
  by_cases h :
      35 < (pyStrip (replaceNewlines (pyStr (if pyTruthy x then x else .str "")))).length
  · rw [if_pos h]
    refine ⟨noNewlines_pyStrip (noNewlines_take 35 hb), pyStrip_idem _, ?_⟩
    have h₁ := pyStrip_length_le
      (⟨(pyStrip (replaceNewlines (pyStr (if pyTruthy x then x else .str "")))).data.take 35⟩ :
        String)
    have h₂ : ((⟨(pyStrip (replaceNewlines
        (pyStr (if pyTruthy x then x else .str "")))).data.take 35⟩ : String)).length ≤ 35 := by
      show ((pyStrip (replaceNewlines
        (pyStr (if pyTruthy x then x else .str "")))).data.take 35).length ≤ 35
      rw [List.length_take]
      omega
    omega
  · rw [if_neg h]
    exact ⟨hb, pyStrip_idem _, by omega⟩

theorem trim_fixed {r : String} (hn : noNewlines r) (hs : pyStrip r = r)
    (hl : r.length ≤ 35) (hne : r ≠ "") :
    _trim_one_line_reason (.str r) = r := by
  unfold _trim_one_line_reason
  dsimp only
  have ht : pyTruthy (.str r) = true := by
    simp [pyTruthy, hne]
  rw [if_pos ht, show pyStr (.str r) = r from rfl, replaceNewlines_eq_self hn, hs,
    if_neg (by omega)]

theorem mkCard_lookup_mentor_id (mid : Json) (r : String) (ts cs : List String) :
    (mkCard mid r ts cs).lookup "mentor_id" = some mid := rfl

theorem mkCard_lookup_reason (mid : Json) (r : String) (ts cs : List String) :
    (mkCard mid r ts cs).lookup "one_line_reason" = some (.str r) := rfl

theorem mkCard_lookup_tags (mid : Json) (r : String) (ts cs : List String) :
    (mkCard mid r ts cs).lookup "overlap_tags" = some (.arr (ts.map .str)) := rfl

theorem mkCard_lookup_cautions (mid : Json) (r : String) (ts cs : List String) :
    (mkCard mid r ts cs).lookup "caution_points" = some (.arr (cs.map .str)) := rfl

theorem mkCard_objKeys (mid : Json) (r : String) (ts cs : List String) :
    (mkCard mid r ts cs).objKeys = requiredCardKeys := rfl

theorem mkCard_lookup_error (mid : Json) (r : String) (ts cs : List String) :
    (mkCard mid r ts cs).lookup "error" = none := rfl

/-- `_validate_card` on a card of the canonical shape, fully characterized. -/
theorem validate_mkCard (v : Validator) (mid : Json) (r : String)
    (tags cautions : List String) :
    _validate_card (mkCard mid r tags cautions) v =
      if pyStr mid = pyStr v.mentor_id then
        .ok (mkCard v.mentor_id
          (if _trim_one_line_reason (.str r) = "" then genericReason
           else _trim_one_line_reason (.str r))
          (((tags.map Json.str).filterMap (fun tag =>
              match tag with
              | .str s => if s ∈ v.overlap_topics ++ v.overlap_stacks then some s else none
              | _ => none)).take 6)
          ((cautions.map Json.str).filterMap (fun x =>
              match x with
              | .str s => if pyStrip s ≠ "" then some (pyStrip s) else none
              | _ => none)))
      else .error "mentor_id mismatch." := by
  show (if pyStr mid ≠ pyStr v.mentor_id then (.error "mentor_id mismatch." : Except String Json)
        else .ok (mkCard v.mentor_id
          (if _trim_one_line_reason (.str r) = "" then genericReason
           else _trim_one_line_reason (.str r))
          (((tags.map Json.str).filterMap (fun tag =>
              match tag with
              | .str s => if s ∈ v.overlap_topics ++ v.overlap_stacks then some s else none
              | _ => none)).take 6)
          ((cautions.map Json.str).filterMap (fun x =>
              match x with
              | .str s => if pyStrip s ≠ "" then some (pyStrip s) else none
              | _ => none)))) = _
  by_cases hm : pyStr mid = pyStr v.mentor_id
  · rw [if_neg (by simp [hm]), if_pos hm]
  · rw [if_pos hm, if_neg hm]

/- ### Properties of card validation (continued) -/

def ValidCardProps (v : Validator) (r : String) (tags cautions : List String) : Prop :=
  r ≠ "" ∧ noNewlines r ∧ pyStrip r = r ∧ r.length ≤ 35 ∧
  tags.length ≤ 6 ∧ (∀ t ∈ tags, t ∈ v.overlap_topics ++ v.overlap_stacks) ∧
  ∀ x ∈ cautions, pyStrip x = x ∧ x ≠ ""

theorem genericReason_props :
    genericReason ≠ "" ∧ noNewlines genericReason ∧
    pyStrip genericReason = genericReason ∧ genericReason.length ≤ 35 := by
  refine ⟨by decide, ?_, by decide, by decide⟩
  show ∀ c ∈ genericReason.data, c ≠ '\r' ∧ c ≠ '\n'
  decide

theorem validate_ok_shape {card : Json} {v : Validator} {c : Json}
    (h : _validate_card card v = .ok c) :
    ∃ r tags cautions,
      c = mkCard v.mentor_id r tags cautions ∧ ValidCardProps v r tags cautions := by
  cases card with
  | obj fields =>
    unfold _validate_card at h
    dsimp only at h
    split at h
    case isTrue hkeys =>
      split at h
      case isTrue hm => simp at h
      case isFalse hm =>
        split at h
        case h_1 provided harr =>
          split at h
          case h_1 cautionItems hcarr =>
            rw [Except.ok.injEq] at h
            subst h
            refine ⟨_, _, _, rfl, ?_, ?_, ?_, ?_, ?_, ?_, ?_⟩
            · by_cases hz : _trim_one_line_reason
                (((Json.obj fields).lookup "one_line_reason").getD .null) = ""
              · rw [if_pos hz]; exact genericReason_props.1
              · rw [if_neg hz]; exact hz
            · by_cases hz : _trim_one_line_reason
                (((Json.obj fields).lookup "one_line_reason").getD .null) = ""
              · rw [if_pos hz]; exact genericReason_props.2.1
              · rw [if_neg hz]; exact (trim_props _).1
            · by_cases hz : _trim_one_line_reason
                (((Json.obj fields).lookup "one_line_reason").getD .null) = ""
              · rw [if_pos hz]; exact genericReason_props.2.2.1
              · rw [if_neg hz]; exact (trim_props _).2.1
            · by_cases hz : _trim_one_line_reason
                (((Json.obj fields).lookup "one_line_reason").getD .null) = ""
              · rw [if_pos hz]; exact genericReason_props.2.2.2
              · rw [if_neg hz]; exact (trim_props _).2.2
            · exact List.length_take_le ..
            · intro t ht
              have ht' := List.take_subset _ _ ht
              rw [List.mem_filterMap] at ht'
              obtain ⟨a, hap, ha⟩ := ht'
              cases a with
              | str s =>
                dsimp only at ha
                by_cases hmem : s ∈ v.overlap_topics ++ v.overlap_stacks
                · rw [if_pos hmem] at ha
                  cases ha
                  exact hmem
                · rw [if_neg hmem] at ha
                  exact Option.noConfusion ha
              | null => exact Option.noConfusion ha
              | bool b => exact Option.noConfusion ha
              | num n => exact Option.noConfusion ha
              | arr elems => exact Option.noConfusion ha
              | obj fs => exact Option.noConfusion ha
            · intro x hx
              rw [List.mem_filterMap] at hx
              obtain ⟨a, hap, ha⟩ := hx
              cases a with
              | str s =>
                dsimp only at ha
                by_cases hne : pyStrip s ≠ ""
                · rw [if_pos hne] at ha
                  cases ha
                  exact ⟨pyStrip_idem s, hne⟩
                · rw [if_neg hne] at ha
                  exact Option.noConfusion ha
              | null => exact Option.noConfusion ha
              | bool b => exact Option.noConfusion ha
              | num n => exact Option.noConfusion ha
              | arr elems => exact Option.noConfusion ha
              | obj fs => exact Option.noConfusion ha
          case h_2 => simp at h
        case h_2 => simp at h
    case isFalse hkeys => simp at h
  | null => simp [_validate_card] at h
  | bool b => simp [_validate_card] at h
  | num n => simp [_validate_card] at h
  | str s => simp [_validate_card] at h
  | arr xs => simp [_validate_card] at h

theorem filterMap_str_mem {allowed tags : List String} (h : ∀ t ∈ tags, t ∈ allowed) :
    (tags.map Json.str).filterMap (fun tag =>
      match tag with
      | .str s => if s ∈ allowed then some s else none
      | _ => none) = tags := by
  induction tags with
  | nil => rfl
  | cons a t ih =>
    rw [List.map_cons, List.filterMap_cons]
    dsimp only
    rw [if_pos (h a (List.mem_cons_self ..)), ih fun x hx => h x (List.mem_cons_of_mem _ hx)]

theorem filterMap_strip_fixed {cautions : List String}
    (h : ∀ x ∈ cautions, pyStrip x = x ∧ x ≠ "") :
    (cautions.map Json.str).filterMap (fun x =>
      match x with
      | .str s => if pyStrip s ≠ "" then some (pyStrip s) else none
      | _ => none) = cautions := by
  induction cautions with
  | nil => rfl
  | cons a t ih =>
    obtain ⟨hs, hne⟩ := h a (List.mem_cons_self ..)
    rw [List.map_cons, List.filterMap_cons]
    dsimp only
    rw [hs, if_pos hne, ih fun x hx => h x (List.mem_cons_of_mem _ hx)]

/-- Re-validating a validated card against the same validator returns it
unchanged. -/
theorem validate_fixpoint {v : Validator} {r : String} {tags cautions : List String}
    (hp : ValidCardProps v r tags cautions) :
    _validate_card (mkCard v.mentor_id r tags cautions) v
      = .ok (mkCard v.mentor_id r tags cautions) := by
  obtain ⟨hne, hn, hs, hl, htl, htm, hc⟩ := hp
  rw [validate_mkCard, if_pos rfl, trim_fixed hn hs hl hne, if_neg hne,
    filterMap_str_mem htm, List.take_of_length_le htl, filterMap_strip_fixed hc]

/- ### Association-list and cache lemmas -/

theorem assocFind_insert_self {β : Type} (m : List (String × β)) (key : String) (v : β) :
    assocFind (assocInsert m key v) key = some v := by
  unfold assocInsert
  by_cases h : m.any (fun e => e.1 = key)
  · rw [if_pos h]
    induction m with
    | nil => simp at h
    | cons e t ih =>
      by_cases he : e.1 = key
      · simp [assocFind, List.find?_cons, he]
      · rw [List.any_cons] at h
        have ht : t.any (fun e => e.1 = key) = true := by
          rcases Bool.or_eq_true_iff.1 h with h' | h'
          · exact absurd (by simpa using h') he
          · exact h'
        simpa [assocFind, List.find?_cons, he] using ih ht
  · rw [if_neg h]
    unfold assocFind
    rw [List.find?_append]
    have hnone : m.find? (fun e => e.1 = key) = none := by
      rw [List.find?_eq_none]
      intro x hx
      simp only [List.any_eq_true] at h
      push_neg at h
      simpa using h x hx
    rw [hnone]
    simp

theorem find_map_replace {β : Type} (t : List (String × β)) (key k : String) (v : β)
    (hne : k ≠ key) :
    (t.map (fun e => if e.1 = key then (key, v) else e)).find? (fun e => e.1 = k)
      = t.find? (fun e => e.1 = k) := by
  induction t with
  | nil => rfl
  | cons e t ih =>
    rw [List.map_cons, List.find?_cons, List.find?_cons]
    by_cases he : e.1 = key
    · have hek : decide (e.1 = k) = false := by simp [he, Ne.symm hne]
      rw [if_pos he, hek, show (decide ((key, v).1 = k)) = false by simp [Ne.symm hne], ih]
    · rw [if_neg he]
      by_cases hk : e.1 = k
      · rw [show (decide (e.1 = k)) = true by simp [hk]]
      · rw [show (decide (e.1 = k)) = false by simp [hk], ih]

theorem assocFind_insert_ne {β : Type} (m : List (String × β)) (key k : String) (v : β)
    (hne : k ≠ key) : assocFind (assocInsert m key v) k = assocFind m k := by
  unfold assocInsert
  by_cases h : m.any (fun e => e.1 = key)
  · rw [if_pos h]
    unfold assocFind
    rw [find_map_replace m key k v hne]
  · rw [if_neg h]
    unfold assocFind
    rw [List.find?_append]
    have : ([(key, v)].find? (fun e => e.1 = k)) = none := by
      simp [List.find?_cons, Ne.symm hne]
    rw [this]
    cases m.find? (fun e => e.1 = k) <;> simp

/- ### Pipeline state lemmas -/

theorem objSet_obj (fields : List (String × Json)) (key : String) (v : Json) :
    (Json.obj fields).objSet key v = Json.obj (fieldsInsert fields key v) := rfl

theorem objSet_lookup_self (fields : List (String × Json)) (key : String) (v : Json) :
    ((Json.obj fields).objSet key v).lookup key = some v := by
  rw [objSet_obj]
  show assocFind (fieldsInsert fields key v) key = some v
  unfold fieldsInsert
  exact assocFind_insert_self ..

theorem objSet_lookup_ne (fields : List (String × Json)) (key k : String) (v : Json)
    (hne : k ≠ key) :
    ((Json.obj fields).objSet key v).lookup k = (Json.obj fields).lookup k := by
  rw [objSet_obj]
  show assocFind (fieldsInsert fields key v) k = assocFind fields k
  unfold fieldsInsert
  exact assocFind_insert_ne _ _ _ _ hne

set_option maxHeartbeats 1600000 in
/-- Behavior of the retry loop: a success returns a card that passed
validation and persists exactly that card under the fingerprint; a failure
leaves the cache untouched and, when at least one attempt ran, carries some
last error message. -/
theorem attemptLoop_spec (provider : String) (api_key : Bool)
    (gen : Nat → Except String String) (v : Validator) (key : String) :
    ∀ (n i : Nat) (st : FillState) (last : Option String),
      (∀ card st' last',
        attemptLoop provider api_key gen v key i n st last = (some card, st', last') →
        (∃ parsed, _validate_card parsed v = .ok card) ∧
          st'.cache = assocInsert st.cache key card) ∧
      (∀ st' last',
        attemptLoop provider api_key gen v key i n st last = (none, st', last') →
        st'.cache = st.cache ∧ (1 ≤ n → ∃ e, last' = some e)) := by
  intro n
  induction n with
  | zero =>
    intro i st last
    constructor
    · intro card st' last' h
      injection h with h1 h23
      exact Option.noConfusion h1
    · intro st' last' h
      injection h with h1 h23
      injection h23 with h2 h3
      exact ⟨by rw [← h2], by omega⟩
  | succ n ih =>
    intro i st last
    have step :
        ∀ (e : String) (st₁ : FillState), st₁.cache = st.cache →
          (∀ card st' last',
            attemptLoop provider api_key gen v key (i + 1) n st₁ (some e) =
              (some card, st', last') →
            (∃ parsed, _validate_card parsed v = .ok card) ∧
              st'.cache = assocInsert st.cache key card) ∧
          (∀ st' last',
            attemptLoop provider api_key gen v key (i + 1) n st₁ (some e) =
              (none, st', last') →
            st'.cache = st.cache ∧ ∃ e', last' = some e') := by
      intro e st₁ hc
      obtain ⟨ih1, ih2⟩ := ih (i + 1) st₁ (some e)
      constructor
      · intro card st' last' h
        obtain ⟨hp, hcache⟩ := ih1 card st' last' h
        exact ⟨hp, by rw [hcache, hc]⟩
      · intro st' last' h
        obtain ⟨hcache, hlast⟩ := ih2 st' last' h
        refine ⟨by rw [hcache, hc], ?_⟩
        rcases Nat.eq_zero_or_pos n with rfl | hn
        · injection h with h1 h23
          injection h23 with h2 h3
          exact ⟨e, h3.symm⟩
        · exact hlast hn
    constructor
    · intro card st' last' h
      rw [attemptLoop.eq_2] at h
      by_cases hprov : provider ≠ "gemini_http"
      · rw [if_pos hprov] at h
        exact (step ("Unsupported llm provider: " ++ provider) st rfl).1 card st' last' h
      · rw [if_neg hprov] at h
        by_cases hkey : api_key
        · rw [if_neg (by simp [hkey])] at h
          cases hg : gen i with
          | error e =>
            rw [hg] at h
            exact (step e ⟨st.cache, st.calls + 1⟩ rfl).1 card st' last' h
          | ok raw =>
            rw [hg] at h
            dsimp only at h
            cases hx : _extract_json_object raw with
            | error e =>
              rw [hx] at h
              exact (step e ⟨st.cache, st.calls + 1⟩ rfl).1 card st' last' h
            | ok parsed =>
              rw [hx] at h
              dsimp only at h
              cases hval : _validate_card parsed v with
              | error e =>
                rw [hval] at h
                exact (step e ⟨st.cache, st.calls + 1⟩ rfl).1 card st' last' h
              | ok valid =>
                rw [hval] at h
                injection h with h1 h23
                injection h23 with h2 h3
                injection h1 with h1'
                cases h1'
                exact ⟨⟨parsed, hval⟩, by rw [← h2]⟩
        · rw [if_pos (by simp [hkey])] at h
          exact (step missingKeyError st rfl).1 card st' last' h
    · intro st' last' h
      rw [attemptLoop.eq_2] at h
      by_cases hprov : provider ≠ "gemini_http"
      · rw [if_pos hprov] at h
        obtain ⟨hc, he⟩ :=
          (step ("Unsupported llm provider: " ++ provider) st rfl).2 st' last' h
        exact ⟨hc, fun _ => he⟩
      · rw [if_neg hprov] at h
        by_cases hkey : api_key
        · rw [if_neg (by simp [hkey])] at h
          cases hg : gen i with
          | error e =>
            rw [hg] at h
            obtain ⟨hc, he⟩ := (step e ⟨st.cache, st.calls + 1⟩ rfl).2 st' last' h
            exact ⟨hc, fun _ => he⟩
          | ok raw =>
            rw [hg] at h
            dsimp only at h
            cases hx : _extract_json_object raw with
            | error e =>
              rw [hx] at h
              obtain ⟨hc, he⟩ := (step e ⟨st.cache, st.calls + 1⟩ rfl).2 st' last' h
              exact ⟨hc, fun _ => he⟩
            | ok parsed =>
              rw [hx] at h
              dsimp only at h
              cases hval : _validate_card parsed v with
              | error e =>
                rw [hval] at h
                obtain ⟨hc, he⟩ := (step e ⟨st.cache, st.calls + 1⟩ rfl).2 st' last' h
                exact ⟨hc, fun _ => he⟩
              | ok valid =>
                rw [hval] at h
                injection h with h1 h23
                exact Option.noConfusion h1
        · rw [if_pos (by simp [hkey])] at h
          obtain ⟨hc, he⟩ := (step missingKeyError st rfl).2 st' last' h
          exact ⟨hc, fun _ => he⟩

theorem attemptLoop_all_fail (gen : Nat → Except String String) (msgs : Nat → String)
    (hgen : ∀ j, gen j = .error (msgs j)) (v : Validator) (key : String) :
    ∀ (n i : Nat) (st : FillState) (last : Option String), 1 ≤ n →
      attemptLoop "gemini_http" true gen v key i n st last =
        (none, ⟨st.cache, st.calls + n⟩, some (msgs (i + n - 1))) := by
  intro n
  induction n with
  | zero =>
    intro i st last h
    omega
  | succ n ih =>
    intro i st last _
    rw [attemptLoop.eq_2, if_neg (by simp), if_neg (by simp), hgen i]
    rcases Nat.eq_zero_or_pos n with rfl | hn
    · show attemptLoop "gemini_http" true gen v key (i + 1) 0
        ⟨st.cache, st.calls + 1⟩ (some (msgs i)) = _
      rw [attemptLoop.eq_1]
      have e2 : i + (0 + 1) - 1 = i := by omega
      rw [e2]
    · show attemptLoop "gemini_http" true gen v key (i + 1) n
        ⟨st.cache, st.calls + 1⟩ (some (msgs i)) = _
      rw [ih (i + 1) ⟨st.cache, st.calls + 1⟩ (some (msgs i)) hn]
      have e1 : st.calls + 1 + n = st.calls + (n + 1) := by omega
      have e2 : i + 1 + n - 1 = i + (n + 1) - 1 := by omega
      rw [e1, e2]

theorem fillOne_cache_hit {p : PromptItem} {v : Validator} {provider : String}
    {api_key : Bool} {gen : Nat → Except String String} {retry : Int}
    {st : FillState} {c : Json}
    (h : _load_cached_card st.cache (fingerprint p.prompt_for_llm) v = some c) :
    _fill_one p v provider api_key gen retry st = (c, st) := by
  unfold _fill_one
  dsimp only
  rw [h]

theorem fillOne_miss_eq {p : PromptItem} {v : Validator} {provider : String}
    {api_key : Bool} {gen : Nat → Except String String} {retry : Int} {st : FillState}
    (hmiss : _load_cached_card st.cache (fingerprint p.prompt_for_llm) v = none) :
    _fill_one p v provider api_key gen retry st =
      match attemptLoop provider api_key gen v (fingerprint p.prompt_for_llm) 0
          (1 + (max 0 retry).toNat) st none with
      | (some valid, st', _) => (valid, st')
      | (none, st', lastExc) =>
        ((match lastExc with
            | some e => (_fallback_card v).objSet "error" (.str e)
            | none => _fallback_card v).objSet "mentor_id" p.mentor_id,
          { st' with
            cache := assocInsert st'.cache (fingerprint p.prompt_for_llm)
              (_fallback_card v) }) := by
  unfold _fill_one
  dsimp only
  rw [hmiss]

theorem fillOne_all_fail {p : PromptItem} {v : Validator} {retry : Int} {st : FillState}
    (gen : Nat → Except String String) (msgs : Nat → String)
    (hgen : ∀ j, gen j = .error (msgs j))
    (hmiss : assocFind st.cache (fingerprint p.prompt_for_llm) = none) :
    _fill_one p v "gemini_http" true gen retry st =
      (((_fallback_card v).objSet "error" (.str (msgs ((max 0 retry).toNat)))).objSet
          "mentor_id" p.mentor_id,
        ⟨assocInsert st.cache (fingerprint p.prompt_for_llm) (_fallback_card v),
          st.calls + (1 + (max 0 retry).toNat)⟩) := by
  have hload : _load_cached_card st.cache (fingerprint p.prompt_for_llm) v = none := by
    unfold _load_cached_card
    rw [hmiss]
  rw [fillOne_miss_eq hload,
    attemptLoop_all_fail gen msgs hgen v (fingerprint p.prompt_for_llm)
      (1 + (max 0 retry).toNat) 0 st none (by omega)]
  have e1 : 0 + (1 + (max 0 retry).toNat) - 1 = (max 0 retry).toNat := by omega
  rw [e1]

theorem fallback_mkCard (v : Validator) :
    _fallback_card v = mkCard v.mentor_id genericReason
      ((v.overlap_topics ++ v.overlap_stacks).take 6)
      (((sortedSet (v.U_topics.filter (fun t => t ∉ v.M_topics))).take 3).map
        (fun tag => cautionMarker ++ tag)) := rfl

/-- The fallback card always re-validates cleanly against its own validator. -/
theorem validate_fallback (v : Validator) :
    ∃ r tags cautions,
      _validate_card (_fallback_card v) v = .ok (mkCard v.mentor_id r tags cautions) := by
  rw [fallback_mkCard, validate_mkCard, if_pos rfl]
  exact ⟨_, _, _, rfl⟩

theorem objSet_err_mid_lookup (fields : List (String × Json)) (e m : Json) :
    (((Json.obj fields).objSet "error" e).objSet "mentor_id" m).lookup "error"
        = some e ∧
      (((Json.obj fields).objSet "error" e).objSet "mentor_id" m).lookup "mentor_id"
        = some m := by
  constructor
  · rw [objSet_obj fields]
    rw [objSet_lookup_ne _ _ _ _ (by decide)]
    exact objSet_lookup_self ..
  · rw [objSet_obj fields]
    exact objSet_lookup_self ..

/-- Running `_fill_one` again, from the state the first run left, with the
same prompt and validator: the state (cache and external-call count) is
unchanged, and the returned card is the first card when that card carried
no diagnostic error field, and otherwise the re-validated clean fallback. -/
theorem fillOne_twice {p : PromptItem} {v : Validator} {provider : String}
    {api_key : Bool} {gen gen' : Nat → Except String String} {retry : Int}
    {st : FillState}
    (hmiss : assocFind st.cache (fingerprint p.prompt_for_llm) = none) :
    (_fill_one p v provider api_key gen' retry
        (_fill_one p v provider api_key gen retry st).2).2 =
      (_fill_one p v provider api_key gen retry st).2 ∧
    ((_fill_one p v provider api_key gen retry st).1.lookup "error" = none →
      (_fill_one p v provider api_key gen' retry
        (_fill_one p v provider api_key gen retry st).2).1 =
      (_fill_one p v provider api_key gen retry st).1) ∧
    ((_fill_one p v provider api_key gen retry st).1.lookup "error" ≠ none →
      _validate_card (_fallback_card v) v =
        .ok (_fill_one p v provider api_key gen' retry
          (_fill_one p v provider api_key gen retry st).2).1 ∧
      (_fill_one p v provider api_key gen' retry
        (_fill_one p v provider api_key gen retry st).2).1.lookup "error" = none) := by
  have hload : _load_cached_card st.cache (fingerprint p.prompt_for_llm) v = none := by
    unfold _load_cached_card
    rw [hmiss]
  have h1 := @fillOne_miss_eq p v provider api_key gen retry st hload
  obtain ⟨specSome, specNone⟩ := attemptLoop_spec provider api_key gen v
    (fingerprint p.prompt_for_llm) (1 + (max 0 retry).toNat) 0 st none
  rcases hA : attemptLoop provider api_key gen v (fingerprint p.prompt_for_llm) 0
      (1 + (max 0 retry).toNat) st none with ⟨o, stA, lastE⟩
  cases o with
  | some valid =>
    obtain ⟨⟨parsed, hval⟩, hcache⟩ := specSome valid stA lastE hA
    obtain ⟨r, tags, cautions, rfl, hprops⟩ := validate_ok_shape hval
    have hr₁ : _fill_one p v provider api_key gen retry st
        = (mkCard v.mentor_id r tags cautions, stA) := by
      rw [h1, hA]
    have hload₂ : _load_cached_card stA.cache (fingerprint p.prompt_for_llm) v
        = some (mkCard v.mentor_id r tags cautions) := by
      unfold _load_cached_card
      rw [hcache, assocFind_insert_self]
      dsimp only
      rw [validate_fixpoint hprops]
    have hr₂ : _fill_one p v provider api_key gen' retry
        (_fill_one p v provider api_key gen retry st).2
        = (mkCard v.mentor_id r tags cautions, stA) := by
      rw [hr₁]
      exact fillOne_cache_hit hload₂
    rw [hr₂, hr₁]
    refine ⟨rfl, fun _ => rfl, fun hne => absurd (mkCard_lookup_error ..) hne⟩
  | none =>
    obtain ⟨hcache, hlast⟩ := specNone stA lastE hA
    obtain ⟨e, rfl⟩ := hlast (by omega)
    have hr₁ : _fill_one p v provider api_key gen retry st
        = (((_fallback_card v).objSet "error" (.str e)).objSet "mentor_id" p.mentor_id,
          ⟨assocInsert stA.cache (fingerprint p.prompt_for_llm) (_fallback_card v),
            stA.calls⟩) := by
      rw [h1, hA]
    obtain ⟨r, tags, cautions, hvalok⟩ := validate_fallback v
    have hload₂ : _load_cached_card
        (assocInsert stA.cache (fingerprint p.prompt_for_llm) (_fallback_card v))
        (fingerprint p.prompt_for_llm) v
        = some (mkCard v.mentor_id r tags cautions) := by
      unfold _load_cached_card
      rw [assocFind_insert_self]
      dsimp only
      rw [hvalok]
    have hr₂ : _fill_one p v provider api_key gen' retry
        (_fill_one p v provider api_key gen retry st).2
        = (mkCard v.mentor_id r tags cautions,
          ⟨assocInsert stA.cache (fingerprint p.prompt_for_llm) (_fallback_card v),
            stA.calls⟩) := by
      rw [hr₁]
      exact fillOne_cache_hit hload₂
    have herr : (((_fallback_card v).objSet "error" (.str e)).objSet "mentor_id"
        p.mentor_id).lookup "error" = some (.str e) := by
      rw [fallback_mkCard]
      exact (objSet_err_mid_lookup _ _ _).1
    rw [hr₂, hr₁]
    refine ⟨rfl, fun h0 => ?_, fun _ => ⟨?_, mkCard_lookup_error ..⟩⟩
    · exact absurd (herr.symm.trans h0) (by simp)
    · exact hvalok

/- ### Concrete fixtures used by witnesses and counterexamples -/

/-- A validator payload for mentor 7 with true overlap
`{cache_strategy} ∪ {redis}`. -/
def exValidator : Validator :=
  { mentor_id := .num 7, overlap_topics := ["cache_strategy"],
    overlap_stacks := ["redis"], U_topics := ["cache_strategy", "index_tuning"],
    M_topics := ["cache_strategy"] }

/-- The prompt item paired with `exValidator`. -/
def exPrompt : PromptItem := { mentor_id := .num 7, prompt_for_llm := "PROMPT-7" }

/-- An adversarial candidate card: it claims the non-overlapping tag
`not_overlap`, carries an untrimmed reason and dirty caution points. -/
def exGoodCard : Json :=
  .obj [("mentor_id", .str "7"),
        ("one_line_reason", .str "  good reason  "),
        ("overlap_tags", .arr [.str "redis", .str "not_overlap", .str "cache_strategy"]),
        ("caution_points", .arr [.str " x ", .num 3, .str "  "])]

/-- The card `_validate_card` returns for `exGoodCard` against `exValidator`. -/
def exGoodOut : Json :=
  .obj [("mentor_id", .num 7),
        ("one_line_reason", .str "good reason"),
        ("overlap_tags", .arr [.str "redis", .str "cache_strategy"]),
        ("caution_points", .arr [.str "x"])]

/-- A candidate card whose mentor id (8) differs from the validator's (7). -/
def exBadIdCard : Json :=
  .obj [("mentor_id", .num 8), ("one_line_reason", .str "r"),
        ("overlap_tags", .arr []), ("caution_points", .arr [])]

/-- A generator oracle whose every call fails with a transport error. -/
def exGenFail : Nat → Except String String := fun i => .error ("boom" ++ toString i)

/-- Cold pipeline state: empty cache, no calls issued. -/
def exEmptyState : FillState := { cache := [], calls := 0 }

/- ### Claim theorems: validation -/

/-- C1: every card returned by `_validate_card` has `overlap_tags` a list of
strings, each a member of the union of the validator's overlap topics and
overlap stacks, with at most 6 entries; and a candidate whose `mentor_id`
differs from the validator's mentor id is rejected with a validation error,
not corrected. -/
theorem C1_validation_soundness :
    (∀ (card : Json) (v : Validator) (c : Json), _validate_card card v = .ok c →
      ∃ tags : List String,
        c.lookup "overlap_tags" = some (.arr (tags.map .str)) ∧
        tags.length ≤ 6 ∧
        ∀ t ∈ tags, t ∈ v.overlap_topics ∨ t ∈ v.overlap_stacks) ∧
    (∀ (card : Json) (v : Validator) (mid : Json),
      card.lookup "mentor_id" = some mid → pyStr mid ≠ pyStr v.mentor_id →
      ∃ e, _validate_card card v = .error e) := by
  constructor
  · intro card v c h
    obtain ⟨r, tags, cautions, rfl, hp⟩ := validate_ok_shape h
    refine ⟨tags, mkCard_lookup_tags .., hp.2.2.2.2.1, fun t ht => ?_⟩
    have := hp.2.2.2.2.2.1 t ht
    rwa [List.mem_append] at this
  · intro card v mid hmid hne
    cases card with
    | obj fields =>
      simp only [_validate_card]
      by_cases hkeys :
          (requiredCardKeys.all fun k => ((Json.obj fields).lookup k).isSome) = true
      · rw [if_pos hkeys]
        have hm : ((Json.obj fields).lookup "mentor_id").getD .null = mid := by
          rw [hmid]
          rfl
        rw [hm, if_pos hne]
        exact ⟨_, rfl⟩
      · rw [if_neg hkeys]
        exact ⟨_, rfl⟩
    | null => exact ⟨_, rfl⟩
    | bool b => exact ⟨_, rfl⟩
    | num n => exact ⟨_, rfl⟩
    | str s => exact ⟨_, rfl⟩
    | arr xs => exact ⟨_, rfl⟩

theorem C1_validation_soundness_witness :
    (∃ tags : List String,
      exGoodOut.lookup "overlap_tags" = some (.arr (tags.map .str)) ∧
      tags.length ≤ 6 ∧
      ∀ t ∈ tags, t ∈ exValidator.overlap_topics ∨ t ∈ exValidator.overlap_stacks) ∧
    (∃ e, _validate_card exBadIdCard exValidator = .error e) :=
  ⟨C1_validation_soundness.1 exGoodCard exValidator exGoodOut (by decide),
   C1_validation_soundness.2 exBadIdCard exValidator (.num 8) (by decide) (by decide)⟩

/-- C10: every card produced by `_validate_card` — in particular every card
served from a cache hit by `_load_cached_card` — has exactly the four fields
`mentor_id`, `one_line_reason`, `overlap_tags`, `caution_points`; hence the
diagnostic `error` field is never present on a card returned from the cache. -/
theorem C10_card_field_invariant :
    (∀ (card : Json) (v : Validator) (c : Json), _validate_card card v = .ok c →
      c.objKeys = ["mentor_id", "one_line_reason", "overlap_tags", "caution_points"] ∧
      c.lookup "error" = none) ∧
    (∀ (cache : List (String × Json)) (key : String) (v : Validator) (c : Json),
      _load_cached_card cache key v = some c →
      c.objKeys = ["mentor_id", "one_line_reason", "overlap_tags", "caution_points"] ∧
      c.lookup "error" = none) := by
  have core : ∀ (card : Json) (v : Validator) (c : Json), _validate_card card v = .ok c →
      c.objKeys = ["mentor_id", "one_line_reason", "overlap_tags", "caution_points"] ∧
      c.lookup "error" = none := by
    intro card v c h
    obtain ⟨r, tags, cautions, rfl, -⟩ := validate_ok_shape h
    exact ⟨mkCard_objKeys .., mkCard_lookup_error ..⟩
  refine ⟨core, ?_⟩
  intro cache key v c h
  unfold _load_cached_card at h
  cases hf : assocFind cache key with
  | none =>
    rw [hf] at h
    exact Option.noConfusion h
  | some cached =>
    rw [hf] at h
    dsimp only at h
    cases hv : _validate_card cached v with
    | error e =>
      rw [hv] at h
      exact Option.noConfusion h
    | ok c' =>
      rw [hv] at h
      injection h with h'
      subst h'
      exact core cached v c' hv

theorem C10_card_field_invariant_witness :
    (exGoodOut.objKeys =
        ["mentor_id", "one_line_reason", "overlap_tags", "caution_points"] ∧
      exGoodOut.lookup "error" = none) ∧
    (exGoodOut.objKeys =
        ["mentor_id", "one_line_reason", "overlap_tags", "caution_points"] ∧
      exGoodOut.lookup "error" = none) :=
  ⟨C10_card_field_invariant.1 exGoodCard exValidator exGoodOut (by decide),
   C10_card_field_invariant.2 [("k", exGoodCard)] "k" exValidator exGoodOut (by decide)⟩

theorem mkCard_objSetErr_lookups (mid : Json) (r : String) (ts cs : List String)
    (e m : Json) :
    (((mkCard mid r ts cs).objSet "error" e).objSet "mentor_id" m).lookup "error"
        = some e ∧
    (((mkCard mid r ts cs).objSet "error" e).objSet "mentor_id" m).lookup "mentor_id"
        = some m ∧
    (((mkCard mid r ts cs).objSet "error" e).objSet "mentor_id" m).lookup
        "one_line_reason" = some (.str r) ∧
    (((mkCard mid r ts cs).objSet "error" e).objSet "mentor_id" m).lookup
        "overlap_tags" = some (.arr (ts.map .str)) ∧
    (((mkCard mid r ts cs).objSet "error" e).objSet "mentor_id" m).lookup
        "caution_points" = some (.arr (cs.map .str)) :=
  ⟨rfl, rfl, rfl, rfl, rfl⟩

/-- C6: when every one of the `1 + max(0, retry)` generation attempts fails,
`_fill_one` still returns a card whose `mentor_id` is the prompt's requested
id, whose `one_line_reason` is the fixed non-empty generic string, whose
`overlap_tags` are the first 6 entries of the validator's overlap topics
followed by overlap stacks, and whose `caution_points` are the first 3
sorted user topics absent from the mentor's topics, each marker-prefixed;
the clean fallback is persisted to the cache and the last attempt's error
message is attached to the returned card as diagnostic metadata. -/
theorem C6_fallback_guarantee :
    ∀ (p : PromptItem) (v : Validator) (retry : Int) (st : FillState)
      (gen : Nat → Except String String) (msgs : Nat → String),
      (∀ j, gen j = .error (msgs j)) →
      assocFind st.cache (fingerprint p.prompt_for_llm) = none →
      ∃ card st',
        _fill_one p v "gemini_http" true gen retry st = (card, st') ∧
        card.lookup "mentor_id" = some p.mentor_id ∧
        card.lookup "one_line_reason" = some (.str genericReason) ∧
        genericReason ≠ "" ∧
        card.lookup "overlap_tags" =
          some (.arr (((v.overlap_topics ++ v.overlap_stacks).take 6).map .str)) ∧
        card.lookup "caution_points" =
          some (.arr ((((sortedSet (v.U_topics.filter
            (fun t => t ∉ v.M_topics))).take 3).map
              (fun tag => cautionMarker ++ tag)).map .str)) ∧
        card.lookup "error" = some (.str (msgs ((max 0 retry).toNat))) ∧
        assocFind st'.cache (fingerprint p.prompt_for_llm) = some (_fallback_card v) ∧
        st'.calls = st.calls + (1 + (max 0 retry).toNat) := by
  intro p v retry st gen msgs hgen hmiss
  refine ⟨_, _, fillOne_all_fail gen msgs hgen hmiss, ?_⟩
  rw [fallback_mkCard]
  obtain ⟨he, hm, hr, ht, hc⟩ := mkCard_objSetErr_lookups v.mentor_id genericReason
    ((v.overlap_topics ++ v.overlap_stacks).take 6)
    (((sortedSet (v.U_topics.filter (fun t => t ∉ v.M_topics))).take 3).map
      (fun tag => cautionMarker ++ tag))
    (.str (msgs ((max 0 retry).toNat))) p.mentor_id
  exact ⟨hm, hr, genericReason_props.1, ht, hc, he,
    assocFind_insert_self .., rfl⟩

theorem C6_fallback_guarantee_witness :
    ∃ card st',
      _fill_one exPrompt exValidator "gemini_http" true exGenFail 1 exEmptyState
        = (card, st') ∧
      card.lookup "mentor_id" = some exPrompt.mentor_id ∧
      card.lookup "one_line_reason" = some (.str genericReason) ∧
      genericReason ≠ "" ∧
      card.lookup "overlap_tags" =
        some (.arr (((exValidator.overlap_topics ++
          exValidator.overlap_stacks).take 6).map .str)) ∧
      card.lookup "caution_points" =
        some (.arr ((((sortedSet (exValidator.U_topics.filter
          (fun t => t ∉ exValidator.M_topics))).take 3).map
            (fun tag => cautionMarker ++ tag)).map .str)) ∧
      card.lookup "error" = some (.str ("boom" ++ toString ((max 0 (1 : Int)).toNat))) ∧
      assocFind st'.cache (fingerprint exPrompt.prompt_for_llm)
        = some (_fallback_card exValidator) ∧
      st'.calls = exEmptyState.calls + (1 + (max 0 (1 : Int)).toNat) :=
  C6_fallback_guarantee exPrompt exValidator 1 exEmptyState exGenFail
    (fun i => "boom" ++ toString i) (fun _ => rfl) (by decide)

/- ### Claim theorems: response parsing -/

/-- The substring a failed strict decode falls back to in
`_extract_json_object`: from the first `{` (`cleaned.find`) to the last `}`
(`cleaned.rfind`), `none` when either brace is missing or the last `}` does
not lie strictly after the first `{`. -/
def braceSlice (s : String) : Option String :=
  let start := s.data.findIdx? (· = '{')
  let stop :=
    match s.data.reverse.findIdx? (· = '}') with
    | some i => some (s.length - 1 - i)
    | none => none
  match start, stop with
  | some a, some b => if b ≤ a then none else some ⟨(s.data.drop a).take (b + 1 - a)⟩
  | _, _ => none

/-- C5 (counterexample): the claim says the parse fallback retries the
decode on the first balanced `\x7b...\x7d` span.  On a text holding two
objects, the first balanced span exists and decodes to an object per that
description, but `_extract_json_object` — which retries on the substring
from the first `{` to the last `}` — raises a parse error. -/
theorem C5_parse_counterexample :
    _extract_json_object "noise \x7b\"a\": 1\x7d mid \x7b\"b\": 2\x7d"
        = .error "Extra data" ∧
    firstBalancedSpan
        (_strip_code_fence "noise \x7b\"a\": 1\x7d mid \x7b\"b\": 2\x7d")
        = some "\x7b\"a\": 1\x7d" ∧
    extractJsonObjectPerSpec "noise \x7b\"a\": 1\x7d mid \x7b\"b\": 2\x7d"
        = .ok (.obj [("a", .num 1)]) :=
  ⟨by decide, by decide, by decide⟩

/-- C5 (amended): `_extract_json_object` strips code-fence markers and
attempts a strict JSON-object decode; if strict decoding fails it retries
the decode on the substring of the stripped text running from the first `{`
to the last `}` (not on the first balanced span); any remaining failure, a
missing or inverted brace pair, or a decoded value that is not an object,
is a parse error. -/
theorem C5_parse_fallback_shape :
    ∀ text : String,
      (∀ fields, json_loads (_strip_code_fence text) = .ok (.obj fields) →
        _extract_json_object text = .ok (.obj fields)) ∧
      (∀ o, json_loads (_strip_code_fence text) = .ok o → (∀ fields, o ≠ .obj fields) →
        _extract_json_object text = .error "Model output is not a JSON object.") ∧
      (∀ e₀ slice, json_loads (_strip_code_fence text) = .error e₀ →
        braceSlice (_strip_code_fence text) = some slice →
        _extract_json_object text =
          match json_loads slice with
          | .ok (.obj fields) => .ok (.obj fields)
          | .ok _ => .error "Model output is not a JSON object."
          | .error e => .error e) ∧
      (∀ e₀, json_loads (_strip_code_fence text) = .error e₀ →
        braceSlice (_strip_code_fence text) = none →
        _extract_json_object text = .error "No JSON object found in model output.") := by
  intro text
  refine ⟨?_, ?_, ?_, ?_⟩
  · intro fields h
    simp only [_extract_json_object]
    rw [h]
  · intro o h hno
    simp only [_extract_json_object]
    rw [h]
    cases o with
    | obj fields => exact absurd rfl (hno fields)
    | null => rfl
    | bool b => rfl
    | num n => rfl
    | str s => rfl
    | arr xs => rfl
  · intro e₀ slice h hs
    simp only [_extract_json_object]
    rw [h]
    simp only [braceSlice] at hs
    cases hfa : (_strip_code_fence text).data.findIdx? (· = '{') with
    | none =>
      rw [hfa] at hs
      exact Option.noConfusion hs
    | some a =>
      rw [hfa] at hs
      cases hfb : (_strip_code_fence text).data.reverse.findIdx? (· = '}') with
      | none =>
        rw [hfb] at hs
        exact Option.noConfusion hs
      | some i =>
        rw [hfb] at hs
        dsimp only at hs ⊢
        by_cases hle : (_strip_code_fence text).length - 1 - i ≤ a
        · rw [if_pos hle] at hs
          exact Option.noConfusion hs
        · rw [if_neg hle] at hs ⊢
          injection hs with hs'
          subst hs'
          cases hl : json_loads
              ⟨(((_strip_code_fence text).data.drop a).take
                ((_strip_code_fence text).length - 1 - i + 1 - a))⟩ with
          | error e => rfl
          | ok o =>
            cases o with
            | obj fields => rfl
            | null => rfl
            | bool b => rfl
            | num n => rfl
            | str s => rfl
            | arr xs => rfl
  · intro e₀ h hs
    simp only [_extract_json_object]
    rw [h]
    simp only [braceSlice] at hs
    cases hfa : (_strip_code_fence text).data.findIdx? (· = '{') with
    | none => rfl
    | some a =>
      rw [hfa] at hs
      cases hfb : (_strip_code_fence text).data.reverse.findIdx? (· = '}') with
      | none => rfl
      | some i =>
        rw [hfb] at hs
        dsimp only at hs ⊢
        by_cases hle : (_strip_code_fence text).length - 1 - i ≤ a
        · rw [if_pos hle]
        · rw [if_neg hle] at hs
          exact Option.noConfusion hs

theorem C5_parse_fallback_shape_witness :
    _extract_json_object "xx \x7b\"a\": 1\x7d yy" = .ok (.obj [("a", .num 1)]) := by
  have h := (C5_parse_fallback_shape "xx \x7b\"a\": 1\x7d yy").2.2.1 "Expecting value"
    "\x7b\"a\": 1\x7d" (by decide) (by decide)
  rw [h]
  decide

/- ### Scoring lemmas -/

theorem abs_round6_sub (x : ℚ) : |round6 x - x| ≤ 1 / 1000000 := by
  unfold round6
  have h := abs_sub_round (x * 1000000)
  rw [abs_sub_comm] at h
  have heq : ((round (x * 1000000) : ℤ) : ℚ) / 1000000 - x
      = (((round (x * 1000000) : ℤ) : ℚ) - x * 1000000) / 1000000 := by ring
  rw [heq, abs_div, abs_of_pos (by norm_num : (0:ℚ) < 1000000)]
  calc |((round (x * 1000000) : ℤ) : ℚ) - x * 1000000| / 1000000
      ≤ (1 / 2) / 1000000 := by gcongr
    _ ≤ 1 / 1000000 := by norm_num

theorem round6_unit {x : ℚ} (h0 : 0 ≤ x) (h1 : x ≤ 1) :
    0 ≤ round6 x ∧ round6 x ≤ 1 := by
  unfold round6
  constructor
  · apply div_nonneg _ (by norm_num)
    have hz : (0:ℤ) ≤ round (x * 1000000) := by
      rw [round_eq]
      apply Int.floor_nonneg.mpr
      nlinarith
    exact_mod_cast hz
  · rw [div_le_one (by norm_num)]
    have hle : round (x * 1000000) ≤ round ((1000000 : ℚ)) := by
      rw [round_eq, round_eq]
      apply Int.floor_mono
      nlinarith
    have h2 : round ((1000000:ℚ)) = 1000000 := by norm_num
    rw [h2] at hle
    exact_mod_cast hle

/-- The sort key as a lexicographic triple. -/
def rankKey (a : ScoredMentor) : Lex (ℚ × Lex (ℚ × ℤ)) :=
  toLex (-a.total_score, toLex (-a.quality, a.mentor_id))

theorem rankLE_iff (a b : ScoredMentor) : rankLE a b ↔ rankKey a ≤ rankKey b := by
  unfold rankLE rankKey
  rw [Prod.Lex.le_iff, Prod.Lex.le_iff]
  simp [neg_lt_neg_iff, neg_inj]

theorem rankLE_trans (a b c : ScoredMentor) :
    rankLE a b → rankLE b c → rankLE a c := by
  rw [rankLE_iff, rankLE_iff, rankLE_iff]
  exact le_trans

theorem rankLE_total (a b : ScoredMentor) : rankLE a b ∨ rankLE b a := by
  rw [rankLE_iff, rankLE_iff]
  exact le_total ..

theorem rankLE_antisymm_key {a b : ScoredMentor} (h₁ : rankLE a b) (h₂ : rankLE b a) :
    a.total_score = b.total_score ∧ a.quality = b.quality ∧
      a.mentor_id = b.mentor_id := by
  rw [rankLE_iff] at h₁ h₂
  have h := le_antisymm h₁ h₂
  unfold rankKey at h
  rw [toLex_inj, Prod.mk.injEq] at h
  obtain ⟨h1, h2⟩ := h
  rw [toLex_inj, Prod.mk.injEq] at h2
  obtain ⟨h2, h3⟩ := h2
  exact ⟨neg_inj.mp h1, neg_inj.mp h2, h3⟩

theorem rankLEb_trans : ∀ a b c : ScoredMentor,
    decide (rankLE a b) = true → decide (rankLE b c) = true →
    decide (rankLE a c) = true := by
  intro a b c h₁ h₂
  exact decide_eq_true (rankLE_trans a b c (of_decide_eq_true h₁) (of_decide_eq_true h₂))

theorem rankLEb_total : ∀ a b : ScoredMentor,
    (decide (rankLE a b) || decide (rankLE b a)) = true := by
  intro a b
  rcases rankLE_total a b with h | h
  · rw [decide_eq_true h]
    rfl
  · rw [decide_eq_true h, Bool.or_true]

/-- The ranking output is sorted by the rank key. -/
theorem recommend_sorted (user_topics user_stacks : Finset String)
    (mentors : List Mentor) (n : Nat) (w_topic w_stack w_quality : ℚ) :
    List.Sorted rankLE
      (recommend_top_n user_topics user_stacks mentors n w_topic w_stack w_quality) := by
  unfold recommend_top_n
  apply List.Pairwise.sublist (List.take_sublist ..)
  have hs := List.sorted_mergeSort rankLEb_trans rankLEb_total
    (mentors.map (scoreMentor user_topics user_stacks w_topic w_stack w_quality))
  exact hs.imp fun h => of_decide_eq_true h

/-- A sorted list is determined by its multiset when the order is
antisymmetric on its members. -/
theorem sorted_perm_unique :
    ∀ {l₁ l₂ : List ScoredMentor}, l₁.Perm l₂ →
      List.Pairwise rankLE l₁ → List.Pairwise rankLE l₂ →
      (∀ a ∈ l₁, ∀ b ∈ l₁, rankLE a b → rankLE b a → a = b) → l₁ = l₂ := by
  intro l₁
  induction l₁ with
  | nil =>
    intro l₂ hp _ _ _
    exact (hp.symm.eq_nil).symm ▸ rfl
  | cons a t ih =>
    intro l₂ hp hs₁ hs₂ hinj
    cases l₂ with
    | nil => exact absurd hp.symm (by simp)
    | cons b t₂ =>
      have hamem : a ∈ b :: t₂ := hp.subset (List.mem_cons_self ..)
      have hbmem : b ∈ a :: t := hp.symm.subset (List.mem_cons_self ..)
      have hab : a = b := by
        rcases List.mem_cons.1 hbmem with h | h
        · exact h.symm
        · have h₁ : rankLE a b := (List.pairwise_cons.1 hs₁).1 b h
          have h₂ : rankLE b a := by
            rcases List.mem_cons.1 hamem with h' | h'
            · rw [h']
              rcases rankLE_total b b with ht | ht <;> exact ht
            · exact (List.pairwise_cons.1 hs₂).1 a h'
          exact hinj a (List.mem_cons_self ..) b hbmem h₁ h₂
      subst hab
      have hpt : t.Perm t₂ := hp.cons_inv
      have het : t = t₂ := by
        apply ih hpt (List.pairwise_cons.1 hs₁).2 (List.pairwise_cons.1 hs₂).2
        intro x hx y hy
        exact hinj x (List.mem_cons_of_mem _ hx) y (List.mem_cons_of_mem _ hy)
      rw [het]

/-- C3: for every mentor and every user tag set, topicMatch is
`|userTopics ∩ mentor.topics| / max(1, |userTopics|)`, stackMatch is
`|userStacks ∩ mentor.stacks| / max(1, |userStacks|)`, quality is
`clamp(mentor.quality, 0, 1)` and total is
`w_topic*topicMatch + w_stack*stackMatch + w_quality*quality`, all within
the fixed rounding tolerance `1e-6`, and each term lies in `[0, 1]`;
per-mentor quality is `clamp(ln(1+count)/ln(1+cohortMax), 0, 1)`, and `0.5`
when the cohort has no mentor with a positive engagement count. -/
theorem C3_score_formula :
    (∀ (user_topics user_stacks : Finset String) (w_topic w_stack w_quality : ℚ)
        (mentor : Mentor),
      |(scoreMentor user_topics user_stacks w_topic w_stack w_quality
          mentor).topicMatch -
        ((user_topics ∩ mentor.topics).card : ℚ) / max 1 (user_topics.card : ℚ)|
          ≤ 1 / 1000000 ∧
      |(scoreMentor user_topics user_stacks w_topic w_stack w_quality
          mentor).stackMatch -
        ((user_stacks ∩ mentor.«stacks»).card : ℚ) / max 1 (user_stacks.card : ℚ)|
          ≤ 1 / 1000000 ∧
      |(scoreMentor user_topics user_stacks w_topic w_stack w_quality
          mentor).quality - clamp_0_1 mentor.quality| ≤ 1 / 1000000 ∧
      |(scoreMentor user_topics user_stacks w_topic w_stack w_quality
          mentor).total_score -
        (w_topic * (((user_topics ∩ mentor.topics).card : ℚ)
            / max 1 (user_topics.card : ℚ)) +
          w_stack * (((user_stacks ∩ mentor.«stacks»).card : ℚ)
            / max 1 (user_stacks.card : ℚ)) +
          w_quality * clamp_0_1 mentor.quality)| ≤ 1 / 1000000 ∧
      (0 ≤ ((user_topics ∩ mentor.topics).card : ℚ) / max 1 (user_topics.card : ℚ) ∧
        ((user_topics ∩ mentor.topics).card : ℚ) / max 1 (user_topics.card : ℚ) ≤ 1) ∧
      (0 ≤ ((user_stacks ∩ mentor.«stacks»).card : ℚ) / max 1 (user_stacks.card : ℚ) ∧
        ((user_stacks ∩ mentor.«stacks»).card : ℚ) / max 1 (user_stacks.card : ℚ) ≤ 1) ∧
      (0 ≤ clamp_0_1 mentor.quality ∧ clamp_0_1 mentor.quality ≤ 1) ∧
      (0 ≤ (scoreMentor user_topics user_stacks w_topic w_stack w_quality
          mentor).topicMatch ∧
        (scoreMentor user_topics user_stacks w_topic w_stack w_quality
          mentor).topicMatch ≤ 1) ∧
      (0 ≤ (scoreMentor user_topics user_stacks w_topic w_stack w_quality
          mentor).stackMatch ∧
        (scoreMentor user_topics user_stacks w_topic w_stack w_quality
          mentor).stackMatch ≤ 1) ∧
      (0 ≤ (scoreMentor user_topics user_stacks w_topic w_stack w_quality
          mentor).quality ∧
        (scoreMentor user_topics user_stacks w_topic w_stack w_quality
          mentor).quality ≤ 1)) ∧
    (∀ mentoring_count cohort_max : ℤ, 0 ≤ mentoring_count →
      compute_quality mentoring_count cohort_max =
        if cohort_max ≤ 0 then 1 / 2
        else clamp01R (Real.log (1 + (mentoring_count : ℝ))
          / Real.log (1 + (cohort_max : ℝ)))) := by
  constructor
  · intro U S wt ws wq m
    have hUpos : (0:ℚ) < max 1 (U.card : ℚ) := lt_of_lt_of_le one_pos (le_max_left ..)
    have hSpos : (0:ℚ) < max 1 (S.card : ℚ) := lt_of_lt_of_le one_pos (le_max_left ..)
    have htm0 : 0 ≤ ((U ∩ m.topics).card : ℚ) / max 1 (U.card : ℚ) :=
      div_nonneg (by positivity) (le_of_lt hUpos)
    have htm1 : ((U ∩ m.topics).card : ℚ) / max 1 (U.card : ℚ) ≤ 1 := by
      rw [div_le_one hUpos]
      calc ((U ∩ m.topics).card : ℚ) ≤ (U.card : ℚ) := by
            exact_mod_cast Finset.card_le_card Finset.inter_subset_left
        _ ≤ max 1 (U.card : ℚ) := le_max_right ..
    have hsm0 : 0 ≤ ((S ∩ m.«stacks»).card : ℚ) / max 1 (S.card : ℚ) :=
      div_nonneg (by positivity) (le_of_lt hSpos)
    have hsm1 : ((S ∩ m.«stacks»).card : ℚ) / max 1 (S.card : ℚ) ≤ 1 := by
      rw [div_le_one hSpos]
      calc ((S ∩ m.«stacks»).card : ℚ) ≤ (S.card : ℚ) := by
            exact_mod_cast Finset.card_le_card Finset.inter_subset_left
        _ ≤ max 1 (S.card : ℚ) := le_max_right ..
    have hq0 : 0 ≤ clamp_0_1 m.quality := le_max_left ..
    have hq1 : clamp_0_1 m.quality ≤ 1 := max_le (by norm_num) (min_le_left ..)
    have he : scoreMentor U S wt ws wq m =
        { mentor_id := m.mentor_id, mentor_name := m.name, company := m.company,
          price := m.price, mentoring_count := m.mentoring_count,
          total_score := round6 (wt * (((U ∩ m.topics).card : ℚ)
              / max 1 (U.card : ℚ)) +
            ws * (((S ∩ m.«stacks»).card : ℚ) / max 1 (S.card : ℚ)) +
            wq * clamp_0_1 m.quality),
          topicMatch := round6 (((U ∩ m.topics).card : ℚ) / max 1 (U.card : ℚ)),
          stackMatch := round6 (((S ∩ m.«stacks»).card : ℚ) / max 1 (S.card : ℚ)),
          quality := round6 (clamp_0_1 m.quality),
          overlap_topics := (U ∩ m.topics).sort (· ≤ ·),
          overlap_stacks := (S ∩ m.«stacks»).sort (· ≤ ·) } := by
      unfold scoreMentor
      dsimp only
      rw [Finset.length_sort, Finset.length_sort]
    rw [he]
    dsimp only
    refine ⟨abs_round6_sub .., abs_round6_sub .., abs_round6_sub .., abs_round6_sub ..,
      ⟨htm0, htm1⟩, ⟨hsm0, hsm1⟩, ⟨hq0, hq1⟩,
      round6_unit htm0 htm1, round6_unit hsm0 hsm1, round6_unit hq0 hq1⟩
  · intro count cmax hc
    unfold compute_quality
    by_cases h : cmax ≤ 0
    · rw [if_pos h, if_pos h]
      norm_num
    · rw [if_neg h, if_neg h, max_eq_right hc]

theorem C3_score_formula_witness :
    0 ≤ (3 : ℤ) ∧ compute_quality 3 (-1) = 1 / 2 := by
  refine ⟨by norm_num, ?_⟩
  have h := C3_score_formula.2 3 (-1) (by norm_num)
  rw [h, if_pos (by norm_num)]

/- ### C4 fixtures and ranking evaluation -/

/-- Sorting a two-element list whose head is already in order leaves it
unchanged. -/
theorem mergeSort_pair_pos {α : Type} {le : α → α → Bool} {a b : α}
    (h : le a b = true) : [a, b].mergeSort le = [a, b] :=
  List.mergeSort_of_sorted (List.pairwise_cons.mpr
    ⟨fun c hc => by rw [List.mem_singleton] at hc; subst hc; exact h,
      List.pairwise_singleton ..⟩)

/-- Sorting a two-element list whose head is out of order swaps it. -/
theorem mergeSort_pair_neg {α : Type} {le : α → α → Bool}
    (htr : ∀ (a b c : α), le a b → le b c → le a c)
    (htot : ∀ (a b : α), le a b || le b a)
    {a b : α} (h : le a b = false) : [a, b].mergeSort le = [b, a] := by
  obtain ⟨l₁, l₂, h1, h2, h3⟩ := List.mergeSort_cons htr htot a [b]
  rw [List.mergeSort_singleton] at h2
  cases l₁ with
  | nil =>
    rw [List.nil_append] at h1 h2
    subst h2
    have hs := List.sorted_mergeSort htr htot [a, b]
    rw [h1, List.pairwise_cons] at hs
    have hab := hs.1 b (List.mem_cons_self ..)
    rw [h] at hab
    exact Bool.noConfusion hab
  | cons x xs =>
    rw [List.cons_append] at h2
    injection h2 with hx ht
    rcases List.append_eq_nil.mp ht.symm with ⟨rfl, rfl⟩
    subst hx
    rw [h1]
    rfl

/-- The total score produced by `scoreMentor`, with the overlap-list lengths
rewritten to intersection cardinalities. -/
theorem score_total_eq (U S : Finset String) (wt ws wq : ℚ) (m : Mentor) :
    (scoreMentor U S wt ws wq m).total_score =
      round6 (wt * (((U ∩ m.topics).card : ℚ) / max 1 (U.card : ℚ)) +
        ws * (((S ∩ m.«stacks»).card : ℚ) / max 1 (S.card : ℚ)) +
        wq * clamp_0_1 m.quality) := by
  unfold scoreMentor
  dsimp only
  rw [Finset.length_sort, Finset.length_sort]

/-- The quality entry of a scored mentor. -/
theorem score_quality_eq (U S : Finset String) (wt ws wq : ℚ) (m : Mentor) :
    (scoreMentor U S wt ws wq m).quality = round6 (clamp_0_1 m.quality) := rfl

/-- Scoring preserves the mentor id. -/
theorem score_id_eq (U S : Finset String) (wt ws wq : ℚ) (m : Mentor) :
    (scoreMentor U S wt ws wq m).mentor_id = m.mentor_id := rfl

/-- Scoring preserves the mentor name. -/
theorem score_name_eq (U S : Finset String) (wt ws wq : ℚ) (m : Mentor) :
    (scoreMentor U S wt ws wq m).mentor_name = m.name := rfl

/-- `clamp_0_1` is the identity on `[0, 1]`. -/
theorem clamp_of_mem (q : ℚ) (h0 : 0 ≤ q) (h1 : q ≤ 1) : clamp_0_1 q = q := by
  unfold clamp_0_1
  rw [min_eq_right h1, max_eq_right h0]

/-- `round6` of a rational whose millionfold is an integer. -/
theorem round6_of_int (x : ℚ) (k : ℤ) (h : x * 1000000 = (k : ℚ)) :
    round6 x = (k : ℚ) / 1000000 := by
  unfold round6
  rw [h, round_intCast]

/-- Five user topics, five user stacks: denominators 5 for both match
ratios. -/
def exUT : Finset String := {"t1", "t2", "t3", "t4", "t5"}

/-- See `exUT`. -/
def exUS : Finset String := {"s1", "s2", "s3", "s4", "s5"}

/-- topicMatch 3/5, stackMatch 2/5, quality 0: total score 0.42. -/
def exM3 : Mentor :=
  { mentor_id := 3, name := "m3", company := "", price := 0, mentoring_count := 0,
    «stacks» := {"s1", "s2"}, topics := {"t1", "t2", "t3"}, quality := 0 }

/-- topicMatch 0, stackMatch 1, quality 3/5: total score 0.42, but a higher
quality than `exM3`. -/
def exM7 : Mentor :=
  { mentor_id := 7, name := "m7", company := "", price := 0, mentoring_count := 0,
    «stacks» := {"s1", "s2", "s3", "s4", "s5"}, topics := ∅, quality := 3 / 5 }

/-- Tied with `exM7eq` on both total score and quality; id 3. -/
def exM3eq : Mentor :=
  { mentor_id := 3, name := "m3", company := "", price := 0, mentoring_count := 0,
    «stacks» := ∅, topics := {"t1", "t2"}, quality := 1 / 2 }

/-- Tied with `exM3eq` on both total score and quality; id 7. -/
def exM7eq : Mentor :=
  { mentor_id := 7, name := "m7", company := "", price := 0, mentoring_count := 0,
    «stacks» := ∅, topics := {"t1", "t2"}, quality := 1 / 2 }

/-- Shares its mentor id and whole sort key with `exMdupB`, differing only
in name. -/
def exMdupA : Mentor :=
  { mentor_id := 1, name := "x", company := "", price := 0, mentoring_count := 0,
    «stacks» := ∅, topics := ∅, quality := 0 }

/-- See `exMdupA`. -/
def exMdupB : Mentor :=
  { mentor_id := 1, name := "y", company := "", price := 0, mentoring_count := 0,
    «stacks» := ∅, topics := ∅, quality := 0 }

/-- A mentor with a fresh id but the same neutral sort key as `exMdupA`. -/
def exMid2 : Mentor :=
  { mentor_id := 2, name := "z", company := "", price := 0, mentoring_count := 0,
    «stacks» := ∅, topics := ∅, quality := 0 }

/-- `exM3` scores a total of 21/50 under weights (0.5, 0.3, 0.2). -/
theorem sEx3_total :
    (scoreMentor exUT exUS (1 / 2) (3 / 10) (1 / 5) exM3).total_score = 21 / 50 := by
  rw [score_total_eq,
    show (exUT ∩ exM3.topics).card = 3 from by decide,
    show (exUS ∩ exM3.«stacks»).card = 2 from by decide,
    show exUT.card = 5 from by decide,
    show exUS.card = 5 from by decide,
    show exM3.quality = 0 from rfl,
    clamp_of_mem 0 le_rfl (by norm_num)]
  push_cast
  rw [show max (1 : ℚ) 5 = 5 from max_eq_right (by norm_num),
    round6_of_int _ 420000 (by push_cast; norm_num)]
  norm_num

/-- `exM7` also scores a total of 21/50 under weights (0.5, 0.3, 0.2). -/
theorem sEx7_total :
    (scoreMentor exUT exUS (1 / 2) (3 / 10) (1 / 5) exM7).total_score = 21 / 50 := by
  rw [score_total_eq,
    show (exUT ∩ exM7.topics).card = 0 from by decide,
    show (exUS ∩ exM7.«stacks»).card = 5 from by decide,
    show exUT.card = 5 from by decide,
    show exUS.card = 5 from by decide,
    show exM7.quality = 3 / 5 from rfl,
    clamp_of_mem (3 / 5) (by norm_num) (by norm_num)]
  push_cast
  rw [show max (1 : ℚ) 5 = 5 from max_eq_right (by norm_num),
    round6_of_int _ 420000 (by push_cast; norm_num)]
  norm_num

/-- `exM3`'s rounded quality entry is 0. -/
theorem sEx3_q :
    (scoreMentor exUT exUS (1 / 2) (3 / 10) (1 / 5) exM3).quality = 0 := by
  rw [score_quality_eq, show exM3.quality = 0 from rfl,
    clamp_of_mem 0 le_rfl (by norm_num),
    round6_of_int 0 0 (by norm_num)]
  norm_num

/-- `exM7`'s rounded quality entry is 3/5. -/
theorem sEx7_q :
    (scoreMentor exUT exUS (1 / 2) (3 / 10) (1 / 5) exM7).quality = 3 / 5 := by
  rw [score_quality_eq, show exM7.quality = 3 / 5 from rfl,
    clamp_of_mem (3 / 5) (by norm_num) (by norm_num),
    round6_of_int _ 600000 (by norm_num)]
  norm_num

/-- The scored `exM3` does not rank at-or-before the scored `exM7`: the
totals tie and `exM7` has strictly higher quality. -/
theorem not_rank_exM3_exM7 :
    ¬ rankLE (scoreMentor exUT exUS (1 / 2) (3 / 10) (1 / 5) exM3)
      (scoreMentor exUT exUS (1 / 2) (3 / 10) (1 / 5) exM7) := by
  unfold rankLE
  rw [sEx3_total, sEx7_total, sEx3_q, sEx7_q]
  norm_num

/-- With ids as the only difference in the sort key, the scored `exM7eq`
does not rank at-or-before the scored `exM3eq`. -/
theorem not_rank_exM7eq_exM3eq :
    ¬ rankLE (scoreMentor exUT exUS (1 / 2) (3 / 10) (1 / 5) exM7eq)
      (scoreMentor exUT exUS (1 / 2) (3 / 10) (1 / 5) exM3eq) := by
  intro h
  unfold rankLE at h
  rcases h with h | ⟨-, h | ⟨-, h⟩⟩
  · exact absurd h (lt_irrefl _)
  · exact absurd h (lt_irrefl _)
  · simp only [score_id_eq, exM7eq, exM3eq] at h
    norm_num at h

/-- `exMdupA` ranks at-or-before `exMdupB`: their sort keys agree. -/
theorem rank_dupAB :
    rankLE (scoreMentor exUT exUS (1 / 2) (3 / 10) (1 / 5) exMdupA)
      (scoreMentor exUT exUS (1 / 2) (3 / 10) (1 / 5) exMdupB) :=
  Or.inr ⟨rfl, Or.inr ⟨rfl, le_of_eq rfl⟩⟩

/-- `exMdupB` ranks at-or-before `exMdupA`: their sort keys agree. -/
theorem rank_dupBA :
    rankLE (scoreMentor exUT exUS (1 / 2) (3 / 10) (1 / 5) exMdupB)
      (scoreMentor exUT exUS (1 / 2) (3 / 10) (1 / 5) exMdupA) :=
  Or.inr ⟨rfl, Or.inr ⟨rfl, le_of_eq rfl⟩⟩

/-- Ranking `[exM3, exM7]` puts `exM7` first. -/
theorem rec_pair_37 :
    recommend_top_n exUT exUS [exM3, exM7] 5 (1 / 2) (3 / 10) (1 / 5) =
      [scoreMentor exUT exUS (1 / 2) (3 / 10) (1 / 5) exM7,
        scoreMentor exUT exUS (1 / 2) (3 / 10) (1 / 5) exM3] := by
  simp only [recommend_top_n, List.map_cons, List.map_nil]
  rw [mergeSort_pair_neg rankLEb_trans rankLEb_total
    (decide_eq_false not_rank_exM3_exM7)]
  rfl

/-- Ranking `[exM7eq, exM3eq]` puts `exM3eq` first. -/
theorem rec_pair_eq37 :
    recommend_top_n exUT exUS [exM7eq, exM3eq] 5 (1 / 2) (3 / 10) (1 / 5) =
      [scoreMentor exUT exUS (1 / 2) (3 / 10) (1 / 5) exM3eq,
        scoreMentor exUT exUS (1 / 2) (3 / 10) (1 / 5) exM7eq] := by
  simp only [recommend_top_n, List.map_cons, List.map_nil]
  rw [mergeSort_pair_neg rankLEb_trans rankLEb_total
    (decide_eq_false not_rank_exM7eq_exM3eq)]
  rfl

/-- With both orders of the duplicated-id pair, the stable sort keeps the
input order, so the two outputs differ. -/
theorem rec_dup_order_dep :
    recommend_top_n exUT exUS [exMdupA, exMdupB] 5 (1 / 2) (3 / 10) (1 / 5) ≠
      recommend_top_n exUT exUS [exMdupB, exMdupA] 5 (1 / 2) (3 / 10) (1 / 5) := by
  have hAB : recommend_top_n exUT exUS [exMdupA, exMdupB] 5 (1 / 2) (3 / 10) (1 / 5) =
      [scoreMentor exUT exUS (1 / 2) (3 / 10) (1 / 5) exMdupA,
        scoreMentor exUT exUS (1 / 2) (3 / 10) (1 / 5) exMdupB] := by
    simp only [recommend_top_n, List.map_cons, List.map_nil]
    rw [mergeSort_pair_pos (decide_eq_true rank_dupAB)]
    rfl
  have hBA : recommend_top_n exUT exUS [exMdupB, exMdupA] 5 (1 / 2) (3 / 10) (1 / 5) =
      [scoreMentor exUT exUS (1 / 2) (3 / 10) (1 / 5) exMdupB,
        scoreMentor exUT exUS (1 / 2) (3 / 10) (1 / 5) exMdupA] := by
    simp only [recommend_top_n, List.map_cons, List.map_nil]
    rw [mergeSort_pair_pos (decide_eq_true rank_dupBA)]
    rfl
  rw [hAB, hBA]
  intro h
  have hn := congrArg (List.map ScoredMentor.mentor_name) h
  simp only [List.map_cons, List.map_nil, score_name_eq] at hn
  exact absurd hn (by decide)

/-- C4 (counterexample): two mentors tied on total score 0.42 with ids 7 and
3, where mentor 7 has the strictly higher quality, are output with id 7
before id 3 — the claim's scenario of a total-score tie does not put the
smaller id first, because the quality tiebreak fires before the id
tiebreak; and with a duplicated mentor id, the output depends on the input
iteration order. -/
theorem C4_rank_order_counterexample :
    ((recommend_top_n exUT exUS [exM3, exM7] 5 (1 / 2) (3 / 10) (1 / 5)).map
        ScoredMentor.mentor_id = [7, 3]) ∧
    (scoreMentor exUT exUS (1 / 2) (3 / 10) (1 / 5) exM7).total_score
      = (scoreMentor exUT exUS (1 / 2) (3 / 10) (1 / 5) exM3).total_score ∧
    recommend_top_n exUT exUS [exMdupA, exMdupB] 5 (1 / 2) (3 / 10) (1 / 5)
      ≠ recommend_top_n exUT exUS [exMdupB, exMdupA] 5 (1 / 2) (3 / 10) (1 / 5) := by
  refine ⟨?_, ?_, rec_dup_order_dep⟩
  · rw [rec_pair_37]
    simp only [List.map_cons, List.map_nil, score_id_eq]
    rfl
  · rw [sEx7_total, sEx3_total]

/-- C4 (amended): the ranking output is sorted by descending total score,
ties broken by descending quality, remaining ties by ascending mentor id,
and truncated to at most `n` candidates; for mentor lists with pairwise
distinct ids the output is independent of the input iteration order; and
two mentors tied on both total score and quality with ids 7 and 3 are
output with id 3 before id 7. -/
theorem C4_rank_order :
    (∀ (user_topics user_stacks : Finset String) (mentors : List Mentor) (n : Nat)
        (w_topic w_stack w_quality : ℚ),
      List.Sorted rankLE
        (recommend_top_n user_topics user_stacks mentors n w_topic w_stack w_quality) ∧
      (recommend_top_n user_topics user_stacks mentors n
        w_topic w_stack w_quality).length ≤ n) ∧
    (∀ (user_topics user_stacks : Finset String) (m₁ m₂ : List Mentor) (n : Nat)
        (w_topic w_stack w_quality : ℚ),
      m₁.Perm m₂ → (m₁.map Mentor.mentor_id).Nodup →
      recommend_top_n user_topics user_stacks m₁ n w_topic w_stack w_quality =
        recommend_top_n user_topics user_stacks m₂ n w_topic w_stack w_quality) ∧
    (((recommend_top_n exUT exUS [exM7eq, exM3eq] 5 (1 / 2) (3 / 10) (1 / 5)).map
        ScoredMentor.mentor_id = [3, 7]) ∧
      (scoreMentor exUT exUS (1 / 2) (3 / 10) (1 / 5) exM7eq).total_score
        = (scoreMentor exUT exUS (1 / 2) (3 / 10) (1 / 5) exM3eq).total_score ∧
      (scoreMentor exUT exUS (1 / 2) (3 / 10) (1 / 5) exM7eq).quality
        = (scoreMentor exUT exUS (1 / 2) (3 / 10) (1 / 5) exM3eq).quality) := by
  refine ⟨?_, ?_, ?_, rfl, rfl⟩
  · intro U S mentors n wt ws wq
    exact ⟨recommend_sorted U S mentors n wt ws wq, List.length_take_le n _⟩
  · intro U S m₁ m₂ n wt ws wq hperm hnodup
    simp only [recommend_top_n]
    have hperm' : (m₁.map (scoreMentor U S wt ws wq)).Perm
        (m₂.map (scoreMentor U S wt ws wq)) := hperm.map _
    have hsorted₁ := List.sorted_mergeSort rankLEb_trans rankLEb_total
      (m₁.map (scoreMentor U S wt ws wq))
    have hsorted₂ := List.sorted_mergeSort rankLEb_trans rankLEb_total
      (m₂.map (scoreMentor U S wt ws wq))
    have hps : ((m₁.map (scoreMentor U S wt ws wq)).mergeSort
        (fun a b => decide (rankLE a b))).Perm
        ((m₂.map (scoreMentor U S wt ws wq)).mergeSort
          (fun a b => decide (rankLE a b))) :=
      ((List.mergeSort_perm ..).trans hperm').trans (List.mergeSort_perm ..).symm
    have heq : (m₁.map (scoreMentor U S wt ws wq)).mergeSort
        (fun a b => decide (rankLE a b)) =
        (m₂.map (scoreMentor U S wt ws wq)).mergeSort
          (fun a b => decide (rankLE a b)) := by
      apply sorted_perm_unique hps
        (hsorted₁.imp fun h => of_decide_eq_true h)
        (hsorted₂.imp fun h => of_decide_eq_true h)
      intro a ha b hb h₁ h₂
      have ha' : a ∈ m₁.map (scoreMentor U S wt ws wq) :=
        (List.mergeSort_perm ..).subset ha
      have hb' : b ∈ m₁.map (scoreMentor U S wt ws wq) :=
        (List.mergeSort_perm ..).subset hb
      rw [List.mem_map] at ha' hb'
      obtain ⟨x, hx, rfl⟩ := ha'
      obtain ⟨y, hy, rfl⟩ := hb'
      have hid := (rankLE_antisymm_key h₁ h₂).2.2
      have hxy : x = y := List.inj_on_of_nodup_map hnodup hx hy (by
        rw [score_id_eq, score_id_eq] at hid
        exact hid)
      rw [hxy]
    rw [heq]
  · rw [rec_pair_eq37]
    simp only [List.map_cons, List.map_nil, score_id_eq]
    rfl

theorem C4_rank_order_witness :
    ([exMdupA, exMid2] : List Mentor).Perm [exMid2, exMdupA] ∧
      (([exMdupA, exMid2].map Mentor.mentor_id).Nodup) ∧
      recommend_top_n exUT exUS [exMdupA, exMid2] 5 (1 / 2) (3 / 10) (1 / 5) =
        recommend_top_n exUT exUS [exMid2, exMdupA] 5 (1 / 2) (3 / 10) (1 / 5) :=
  ⟨by decide, by decide,
    C4_rank_order.2.1 exUT exUS [exMdupA, exMid2] [exMid2, exMdupA] 5
      (1 / 2) (3 / 10) (1 / 5) (by decide) (by decide)⟩

/- ### fill_cards batch lemmas -/

/-- One step of the `fill_cards` result-collection fold: the worker for job
`j` (or the except-branch fallback, if it crashed) stores its card under the
job's mentor id. -/
def fillStep (jobs : List (PromptItem × Validator)) (vb : List (String × Validator))
    (provider : String) (api_key : Bool) (gens : Nat → Nat → Except String String)
    (crash : Nat → Option String) (retry : Int)
    (acc : List (String × Json) × FillState) (j : Nat) :
    List (String × Json) × FillState :=
  match jobs.get? j with
  | none => acc
  | some (item, validator) =>
    let mid := pyStr item.mentor_id
    match crash j with
    | some _ =>
      let fb :=
        match assocFind vb mid with
        | some v => _fallback_card v
        | none => Json.null
      (assocInsert acc.1 mid fb, acc.2)
    | none =>
      let r := _fill_one item validator provider api_key (gens j) retry acc.2
      (assocInsert acc.1 mid r.1, r.2)

/-- When all three configuration checks pass, `fill_cards` is the request-order
readback of the `fillStep` fold over the completion order. -/
theorem fill_cards_ok_eq {prompts : List PromptItem} {validators : List Validator}
    {provider : String} {api_key : Bool} {gens : Nat → Nat → Except String String}
    {crash : Nat → Option String} {retry : Int} {order : List Nat} {st₀ : FillState}
    (hc : ¬(provider = "gemini_http" ∧ ¬api_key))
    (hl : ¬(prompts.length ≠ validators.length))
    {jobs : List (PromptItem × Validator)}
    (hb : buildJobs prompts
      (validators.foldl (fun m v => assocInsert m (pyStr v.mentor_id) v) []) = .ok jobs) :
    fill_cards prompts validators provider api_key gens crash retry order st₀ =
      (.ok ((prompts.map (fun item => pyStr item.mentor_id)).map (fun mid =>
          (assocFind (order.foldl (fillStep jobs
            (validators.foldl (fun m v => assocInsert m (pyStr v.mentor_id) v) [])
            provider api_key gens crash retry) ([], st₀)).1 mid).getD Json.null)),
        (order.foldl (fillStep jobs
          (validators.foldl (fun m v => assocInsert m (pyStr v.mentor_id) v) [])
          provider api_key gens crash retry) ([], st₀)).2) := by
  simp only [fill_cards]
  rw [if_neg hc, if_neg hl, hb]
  rfl

/-- Every entry of the `validators_by_id` dictionary is stored under the
string form of its own mentor id. -/
theorem vbyid_prop (validators : List Validator) :
    ∀ (init : List (String × Validator)),
      (∀ k v, assocFind init k = some v → pyStr v.mentor_id = k) →
      ∀ k v, assocFind (validators.foldl
          (fun m w => assocInsert m (pyStr w.mentor_id) w) init) k = some v →
        pyStr v.mentor_id = k := by
  induction validators with
  | nil => intro init hinit; exact hinit
  | cons w ws ih =>
    intro init hinit k v h
    rw [List.foldl_cons] at h
    refine ih _ ?_ k v h
    intro k' v' h'
    by_cases hk : k' = pyStr w.mentor_id
    · subst hk
      rw [assocFind_insert_self] at h'
      injection h' with h'
      rw [← h']
    · rw [assocFind_insert_ne _ _ _ _ hk] at h'
      exact hinit k' v' h'

/-- A mentor id is absent from the `validators_by_id` dictionary exactly when
no validator payload carries it. -/
theorem vbyid_find_none_iff (validators : List Validator) :
    ∀ (init : List (String × Validator)) (k : String),
      assocFind (validators.foldl
          (fun m w => assocInsert m (pyStr w.mentor_id) w) init) k = none ↔
        (assocFind init k = none ∧ ∀ w ∈ validators, pyStr w.mentor_id ≠ k) := by
  induction validators with
  | nil =>
    intro init k
    simp
  | cons w ws ih =>
    intro init k
    rw [List.foldl_cons, ih]
    constructor
    · rintro ⟨h1, h2⟩
      by_cases hk : k = pyStr w.mentor_id
      · rw [hk, assocFind_insert_self] at h1
        exact Option.noConfusion h1
      · rw [assocFind_insert_ne _ _ _ _ hk] at h1
        refine ⟨h1, ?_⟩
        intro x hx
        rcases List.mem_cons.mp hx with rfl | hx'
        · exact fun hh => hk hh.symm
        · exact h2 x hx'
    · rintro ⟨h1, h2⟩
      have hw : pyStr w.mentor_id ≠ k := h2 w (List.mem_cons_self ..)
      refine ⟨?_, ?_⟩
      · rw [assocFind_insert_ne _ _ _ _ (fun hh => hw hh.symm)]
        exact h1
      · exact fun x hx => h2 x (List.mem_cons_of_mem _ hx)

/-- `buildJobs` fails exactly when some prompt's mentor id is missing from
the dictionary. -/
theorem buildJobs_error_iff (prompts : List PromptItem)
    (m : List (String × Validator)) :
    (∃ e, buildJobs prompts m = Except.error e) ↔
      ∃ p ∈ prompts, assocFind m (pyStr p.mentor_id) = none := by
  induction prompts with
  | nil =>
    constructor
    · rintro ⟨e, he⟩
      exact Except.noConfusion he
    · rintro ⟨p, hp, -⟩
      exact absurd hp (List.not_mem_nil _)
  | cons p ps ih =>
    constructor
    · rintro ⟨e, he⟩
      unfold buildJobs at he
      cases hf : assocFind m (pyStr p.mentor_id) with
      | none => exact ⟨p, List.mem_cons_self .., hf⟩
      | some v =>
        rw [hf] at he
        dsimp only at he
        cases hb : buildJobs ps m with
        | error e' =>
          obtain ⟨q, hq, hqf⟩ := ih.mp ⟨e', hb⟩
          exact ⟨q, List.mem_cons_of_mem _ hq, hqf⟩
        | ok jobs =>
          rw [hb] at he
          dsimp only at he
          exact Except.noConfusion he
    · rintro ⟨q, hq, hqf⟩
      rcases List.mem_cons.mp hq with rfl | hq'
      · refine ⟨"validator payload missing for mentor_id=" ++ pyStr q.mentor_id, ?_⟩
        unfold buildJobs
        rw [hqf]
      · unfold buildJobs
        cases hf : assocFind m (pyStr p.mentor_id) with
        | none => exact ⟨_, rfl⟩
        | some v =>
          obtain ⟨e, he⟩ := ih.mpr ⟨q, hq', hqf⟩
          rw [he]
          exact ⟨e, rfl⟩

/-- The job list built by `buildJobs` pairs the prompts, position by
position, with the validators found for their mentor ids. -/
theorem buildJobs_get :
    ∀ (prompts : List PromptItem) (m : List (String × Validator))
      (jobs : List (PromptItem × Validator)), buildJobs prompts m = .ok jobs →
      jobs.length = prompts.length ∧
      ∀ j, jobs.get? j = (prompts.get? j).bind (fun p =>
        (assocFind m (pyStr p.mentor_id)).map (fun v => (p, v))) := by
  intro prompts
  induction prompts with
  | nil =>
    intro m jobs h
    unfold buildJobs at h
    injection h with h
    subst h
    refine ⟨rfl, ?_⟩
    intro j
    cases j <;> rfl
  | cons p ps ih =>
    intro m jobs h
    unfold buildJobs at h
    cases hf : assocFind m (pyStr p.mentor_id) with
    | none =>
      rw [hf] at h
      dsimp only at h
      exact Except.noConfusion h
    | some v =>
      rw [hf] at h
      dsimp only at h
      cases hb : buildJobs ps m with
      | error e =>
        rw [hb] at h
        dsimp only at h
        exact Except.noConfusion h
      | ok rest =>
        rw [hb] at h
        dsimp only at h
        injection h with h
        subst h
        obtain ⟨hlen, hget⟩ := ih m rest hb
        refine ⟨by simp [hlen], ?_⟩
        intro j
        cases j with
        | zero => simp [hf]
        | succ n => simpa using hget n

/-- `fillStep` on an out-of-range job index is a no-op. -/
theorem fillStep_skip (jobs : List (PromptItem × Validator))
    (vb : List (String × Validator)) (provider : String) (api_key : Bool)
    (gens : Nat → Nat → Except String String) (crash : Nat → Option String)
    (retry : Int) (acc : List (String × Json) × FillState) (j : Nat)
    (hj : jobs.get? j = none) :
    fillStep jobs vb provider api_key gens crash retry acc j = acc := by
  unfold fillStep
  rw [hj]

/-- `fillStep` for a crashed worker stores the except-branch fallback. -/
theorem fillStep_crash (jobs : List (PromptItem × Validator))
    (vb : List (String × Validator)) (provider : String) (api_key : Bool)
    (gens : Nat → Nat → Except String String) (crash : Nat → Option String)
    (retry : Int) (acc : List (String × Json) × FillState) (j : Nat)
    {item : PromptItem} {validator : Validator} {e : String}
    (hj : jobs.get? j = some (item, validator)) (he : crash j = some e) :
    fillStep jobs vb provider api_key gens crash retry acc j =
      (assocInsert acc.1 (pyStr item.mentor_id)
        (match assocFind vb (pyStr item.mentor_id) with
          | some v => _fallback_card v
          | none => Json.null), acc.2) := by
  unfold fillStep
  rw [hj]
  dsimp only
  rw [he]

/-- `fillStep` for a normally completing worker stores the `_fill_one`
result and threads its state. -/
theorem fillStep_run (jobs : List (PromptItem × Validator))
    (vb : List (String × Validator)) (provider : String) (api_key : Bool)
    (gens : Nat → Nat → Except String String) (crash : Nat → Option String)
    (retry : Int) (acc : List (String × Json) × FillState) (j : Nat)
    {item : PromptItem} {validator : Validator}
    (hj : jobs.get? j = some (item, validator)) (hn : crash j = none) :
    fillStep jobs vb provider api_key gens crash retry acc j =
      (assocInsert acc.1 (pyStr item.mentor_id)
        (_fill_one item validator provider api_key (gens j) retry acc.2).1,
       (_fill_one item validator provider api_key (gens j) retry acc.2).2) := by
  unfold fillStep
  rw [hj]
  dsimp only
  rw [hn]

/-- Updating an association list never loses keys. -/
theorem assocFind_insert_isSome {β : Type} (m : List (String × β)) (key k : String)
    (v : β) (h : (assocFind m k).isSome) :
    (assocFind (assocInsert m key v) k).isSome := by
  by_cases hk : k = key
  · subst hk
    rw [assocFind_insert_self]
    rfl
  · rw [assocFind_insert_ne _ _ _ _ hk]
    exact h

/-- Keys present in the accumulator stay present through the fold. -/
theorem fillFold_mono (jobs : List (PromptItem × Validator))
    (vb : List (String × Validator)) (provider : String) (api_key : Bool)
    (gens : Nat → Nat → Except String String) (crash : Nat → Option String)
    (retry : Int) :
    ∀ (order : List Nat) (acc : List (String × Json) × FillState) (k : String),
      (assocFind acc.1 k).isSome →
      (assocFind (order.foldl
        (fillStep jobs vb provider api_key gens crash retry) acc).1 k).isSome := by
  intro order
  induction order with
  | nil => intro acc k h; exact h
  | cons j rest ih =>
    intro acc k h
    rw [List.foldl_cons]
    apply ih
    cases hj : jobs.get? j with
    | none =>
      rw [fillStep_skip _ _ _ _ _ _ _ _ _ hj]
      exact h
    | some pv =>
      obtain ⟨item, validator⟩ := pv
      cases hcr : crash j with
      | some e =>
        rw [fillStep_crash _ _ _ _ _ _ _ _ _ hj hcr]
        exact assocFind_insert_isSome _ _ _ _ h
      | none =>
        rw [fillStep_run _ _ _ _ _ _ _ _ _ hj hcr]
        exact assocFind_insert_isSome _ _ _ _ h

/-- Every job index that appears in the completion order leaves a card
stored under its mentor id. -/
theorem fillFold_present (jobs : List (PromptItem × Validator))
    (vb : List (String × Validator)) (provider : String) (api_key : Bool)
    (gens : Nat → Nat → Except String String) (crash : Nat → Option String)
    (retry : Int) :
    ∀ (order : List Nat) (acc : List (String × Json) × FillState) (j : Nat)
      (item : PromptItem) (validator : Validator),
      j ∈ order → jobs.get? j = some (item, validator) →
      (assocFind (order.foldl
        (fillStep jobs vb provider api_key gens crash retry) acc).1
        (pyStr item.mentor_id)).isSome := by
  intro order
  induction order with
  | nil =>
    intro acc j item validator hmem
    exact absurd hmem (List.not_mem_nil _)
  | cons j₀ rest ih =>
    intro acc j item validator hmem hj
    rw [List.foldl_cons]
    rcases List.mem_cons.mp hmem with rfl | hmem'
    · apply fillFold_mono
      cases hcr : crash j with
      | some e =>
        rw [fillStep_crash _ _ _ _ _ _ _ _ _ hj hcr]
        rw [show (assocInsert acc.1 (pyStr item.mentor_id)
            (match assocFind vb (pyStr item.mentor_id) with
              | some v => _fallback_card v
              | none => Json.null), acc.2).1 = assocInsert acc.1 (pyStr item.mentor_id)
            (match assocFind vb (pyStr item.mentor_id) with
              | some v => _fallback_card v
              | none => Json.null) from rfl, assocFind_insert_self]
        rfl
      | none =>
        rw [fillStep_run _ _ _ _ _ _ _ _ _ hj hcr]
        rw [show (assocInsert acc.1 (pyStr item.mentor_id)
            (_fill_one item validator provider api_key (gens j) retry acc.2).1,
            (_fill_one item validator provider api_key (gens j) retry acc.2).2).1
            = assocInsert acc.1 (pyStr item.mentor_id)
              (_fill_one item validator provider api_key (gens j) retry acc.2).1 from rfl,
          assocFind_insert_self]
        rfl
    · exact ih _ j item validator hmem' hj

/-- The card `_fill_one` returns always carries a `mentor_id` field, equal
to the validator's mentor id (cache hit or generation success) or to the
prompt item's (fallback path). -/
theorem fillOne_mentor_id (p : PromptItem) (v : Validator) (provider : String)
    (api_key : Bool) (gen : Nat → Except String String) (retry : Int)
    (st : FillState) :
    ∃ m, ((_fill_one p v provider api_key gen retry st).1).lookup "mentor_id"
        = some m ∧ (m = v.mentor_id ∨ m = p.mentor_id) := by
  cases hload : _load_cached_card st.cache (fingerprint p.prompt_for_llm) v with
  | some c =>
    rw [fillOne_cache_hit hload]
    have hvc : ∃ cached, _validate_card cached v = .ok c := by
      unfold _load_cached_card at hload
      cases hfc : assocFind st.cache (fingerprint p.prompt_for_llm) with
      | none =>
        rw [hfc] at hload
        exact Option.noConfusion hload
      | some cached =>
        rw [hfc] at hload
        dsimp only at hload
        cases hv : _validate_card cached v with
        | error e =>
          rw [hv] at hload
          exact Option.noConfusion hload
        | ok c' =>
          rw [hv] at hload
          dsimp only at hload
          injection hload with hc
          refine ⟨cached, ?_⟩
          rw [hv, hc]
    obtain ⟨cached, hcv⟩ := hvc
    obtain ⟨r, tags, cautions, hceq, -⟩ := validate_ok_shape hcv
    subst hceq
    exact ⟨v.mentor_id, mkCard_lookup_mentor_id .., Or.inl rfl⟩
  | none =>
    rw [fillOne_miss_eq hload]
    rcases hatt : attemptLoop provider api_key gen v (fingerprint p.prompt_for_llm) 0
        (1 + (max 0 retry).toNat) st none with ⟨first, st', lastExc⟩
    cases first with
    | some valid =>
      dsimp only
      have hval := ((attemptLoop_spec provider api_key gen v (fingerprint p.prompt_for_llm)
        (1 + (max 0 retry).toNat) 0 st none).1 valid st' lastExc hatt).1
      obtain ⟨parsed, hpv⟩ := hval
      obtain ⟨r, tags, cautions, hceq, -⟩ := validate_ok_shape hpv
      subst hceq
      exact ⟨v.mentor_id, mkCard_lookup_mentor_id .., Or.inl rfl⟩
    | none =>
      dsimp only
      cases lastExc with
      | some e =>
        exact ⟨p.mentor_id, (objSet_err_mid_lookup _ _ _).2, Or.inr rfl⟩
      | none =>
        exact ⟨p.mentor_id, objSet_lookup_self _ _ _, Or.inr rfl⟩

/-- Every card stored by the fold lies under the string form of its own
mentor id. -/
theorem fillFold_inv (jobs : List (PromptItem × Validator))
    (vb : List (String × Validator)) (provider : String) (api_key : Bool)
    (gens : Nat → Nat → Except String String) (crash : Nat → Option String)
    (retry : Int)
    (hvb : ∀ k v, assocFind vb k = some v → pyStr v.mentor_id = k)
    (hjobs : ∀ j item validator, jobs.get? j = some (item, validator) →
      assocFind vb (pyStr item.mentor_id) = some validator) :
    ∀ (order : List Nat) (acc : List (String × Json) × FillState),
      (∀ k c, assocFind acc.1 k = some c →
        ∃ m, c.lookup "mentor_id" = some m ∧ pyStr m = k) →
      ∀ k c, assocFind (order.foldl
          (fillStep jobs vb provider api_key gens crash retry) acc).1 k = some c →
        ∃ m, c.lookup "mentor_id" = some m ∧ pyStr m = k := by
  intro order
  induction order with
  | nil => intro acc hacc; exact hacc
  | cons j rest ih =>
    intro acc hacc
    rw [List.foldl_cons]
    apply ih
    cases hj : jobs.get? j with
    | none =>
      rw [fillStep_skip _ _ _ _ _ _ _ _ _ hj]
      exact hacc
    | some pv =>
      obtain ⟨item, validator⟩ := pv
      have hfv := hjobs j item validator hj
      have hvid : pyStr validator.mentor_id = pyStr item.mentor_id := hvb _ _ hfv
      cases hcr : crash j with
      | some e =>
        rw [fillStep_crash _ _ _ _ _ _ _ _ _ hj hcr, hfv]
        intro k c hkc
        dsimp only at hkc
        by_cases hk : k = pyStr item.mentor_id
        · subst hk
          rw [assocFind_insert_self] at hkc
          injection hkc with hkc
          subst hkc
          rw [fallback_mkCard]
          exact ⟨validator.mentor_id, mkCard_lookup_mentor_id .., hvid⟩
        · rw [assocFind_insert_ne _ _ _ _ hk] at hkc
          exact hacc k c hkc
      | none =>
        rw [fillStep_run _ _ _ _ _ _ _ _ _ hj hcr]
        intro k c hkc
        dsimp only at hkc
        by_cases hk : k = pyStr item.mentor_id
        · subst hk
          rw [assocFind_insert_self] at hkc
          injection hkc with hkc
          subst hkc
          obtain ⟨m, hm, hcase⟩ :=
            fillOne_mentor_id item validator provider api_key (gens j) retry acc.2
          refine ⟨m, hm, ?_⟩
          rcases hcase with rfl | rfl
          · exact hvid
          · rfl
        · rw [assocFind_insert_ne _ _ _ _ hk] at hkc
          exact hacc k c hkc

/-- C7: `fill_cards` fails — before issuing any external call and with the
pipeline state untouched — exactly when the `gemini_http` provider has no
API key, when the prompts and validators lists differ in length, or when
some prompt's mentor id has no validator payload; otherwise no
configuration error is raised. -/
theorem C7_failfast :
    ∀ (prompts : List PromptItem) (validators : List Validator) (provider : String)
      (api_key : Bool) (gens : Nat → Nat → Except String String)
      (crash : Nat → Option String) (retry : Int) (order : List Nat)
      (st₀ : FillState),
      ((∃ e, (fill_cards prompts validators provider api_key gens crash retry
          order st₀).1 = Except.error e) ↔
        ((provider = "gemini_http" ∧ api_key = false) ∨
          prompts.length ≠ validators.length ∨
          ∃ p ∈ prompts, ∀ v ∈ validators,
            pyStr v.mentor_id ≠ pyStr p.mentor_id)) ∧
      (∀ e, (fill_cards prompts validators provider api_key gens crash retry
          order st₀).1 = Except.error e →
        (fill_cards prompts validators provider api_key gens crash retry
          order st₀).2 = st₀) := by
  intro prompts validators provider api_key gens crash retry order st₀
  by_cases hc : provider = "gemini_http" ∧ ¬api_key
  · have hfc : fill_cards prompts validators provider api_key gens crash retry order st₀
        = (.error missingKeyError, st₀) := by
      simp only [fill_cards]
      rw [if_pos hc]
    refine ⟨⟨fun _ => Or.inl ⟨hc.1, ?_⟩, fun _ => ⟨missingKeyError, by rw [hfc]⟩⟩, ?_⟩
    · cases api_key
      · rfl
      · exact absurd rfl hc.2
    · intro e _
      rw [hfc]
  · by_cases hl : prompts.length ≠ validators.length
    · have hfc : fill_cards prompts validators provider api_key gens crash retry order st₀
          = (.error "top5_card_prompts and validator_payloads length mismatch.", st₀) := by
        simp only [fill_cards]
        rw [if_neg hc, if_pos hl]
      refine ⟨⟨fun _ => Or.inr (Or.inl hl), fun _ => ⟨_, by rw [hfc]⟩⟩, ?_⟩
      intro e _
      rw [hfc]
    · cases hb : buildJobs prompts
          (validators.foldl (fun m v => assocInsert m (pyStr v.mentor_id) v) []) with
      | error e₀ =>
        have hfc : fill_cards prompts validators provider api_key gens crash retry order st₀
            = (.error e₀, st₀) := by
          simp only [fill_cards]
          rw [if_neg hc, if_neg hl, hb]
        have hmiss : ∃ p ∈ prompts, ∀ v ∈ validators,
            pyStr v.mentor_id ≠ pyStr p.mentor_id := by
          obtain ⟨p, hp, hpf⟩ := (buildJobs_error_iff prompts _).mp ⟨e₀, hb⟩
          exact ⟨p, hp, ((vbyid_find_none_iff validators [] (pyStr p.mentor_id)).mp hpf).2⟩
        refine ⟨⟨fun _ => Or.inr (Or.inr hmiss), fun _ => ⟨e₀, by rw [hfc]⟩⟩, ?_⟩
        intro e _
        rw [hfc]
      | ok jobs =>
        have hfc := @fill_cards_ok_eq prompts validators provider api_key gens crash
          retry order st₀ hc hl jobs hb
        refine ⟨⟨?_, ?_⟩, ?_⟩
        · rintro ⟨e, he⟩
          rw [hfc] at he
          exact Except.noConfusion he
        · rintro (⟨h1, h2⟩ | hl' | ⟨p, hp, hall⟩)
          · exact absurd ⟨h1, by simp [h2]⟩ hc
          · exact absurd hl' hl
          · have hfn : assocFind (validators.foldl
                (fun m v => assocInsert m (pyStr v.mentor_id) v) []) (pyStr p.mentor_id)
                = none :=
              (vbyid_find_none_iff validators [] (pyStr p.mentor_id)).mpr ⟨rfl, hall⟩
            obtain ⟨e', he'⟩ := (buildJobs_error_iff prompts _).mpr ⟨p, hp, hfn⟩
            rw [hb] at he'
            exact Except.noConfusion he'
        · intro e he
          rw [hfc] at he
          exact Except.noConfusion he

theorem C7_failfast_witness :
    (fill_cards [] [] "gemini_http" false (fun _ _ => Except.error "e") (fun _ => none)
        1 [] exEmptyState).2 = exEmptyState :=
  (C7_failfast [] [] "gemini_http" false (fun _ _ => Except.error "e") (fun _ => none)
      1 [] exEmptyState).2 missingKeyError (by decide)

/-- C8: whenever `fill_cards` succeeds and the completion order delivers each
job exactly once (in any permutation), the output list is length-matched to
the prompts, and the card in each slot carries the mentor id of that slot's
prompt — one card per requested mentor id, in request order, crashes and
failures included. -/
theorem C8_order_preservation :
    ∀ (prompts : List PromptItem) (validators : List Validator) (provider : String)
      (api_key : Bool) (gens : Nat → Nat → Except String String)
      (crash : Nat → Option String) (retry : Int) (order : List Nat)
      (st₀ : FillState) (cards : List Json) (stF : FillState),
      order.Perm (List.range prompts.length) →
      fill_cards prompts validators provider api_key gens crash retry order st₀
        = (Except.ok cards, stF) →
      cards.length = prompts.length ∧
      ∀ i p, prompts.get? i = some p →
        ∃ c m, cards.get? i = some c ∧ c.lookup "mentor_id" = some m ∧
          pyStr m = pyStr p.mentor_id := by
  intro prompts validators provider api_key gens crash retry order st₀ cards stF
    hperm hfill
  by_cases hc : provider = "gemini_http" ∧ ¬api_key
  · have hfc : fill_cards prompts validators provider api_key gens crash retry order st₀
        = (.error missingKeyError, st₀) := by
      simp only [fill_cards]
      rw [if_pos hc]
    rw [hfc] at hfill
    injection hfill with h1 h2
    exact Except.noConfusion h1
  by_cases hl : prompts.length ≠ validators.length
  · have hfc : fill_cards prompts validators provider api_key gens crash retry order st₀
        = (.error "top5_card_prompts and validator_payloads length mismatch.", st₀) := by
      simp only [fill_cards]
      rw [if_neg hc, if_pos hl]
    rw [hfc] at hfill
    injection hfill with h1 h2
    exact Except.noConfusion h1
  cases hb : buildJobs prompts
      (validators.foldl (fun m v => assocInsert m (pyStr v.mentor_id) v) []) with
  | error e₀ =>
    have hfc : fill_cards prompts validators provider api_key gens crash retry order st₀
        = (.error e₀, st₀) := by
      simp only [fill_cards]
      rw [if_neg hc, if_neg hl, hb]
    rw [hfc] at hfill
    injection hfill with h1 h2
    exact Except.noConfusion h1
  | ok jobs =>
    have hfc := @fill_cards_ok_eq prompts validators provider api_key gens crash
      retry order st₀ hc hl jobs hb
    rw [hfc] at hfill
    injection hfill with h1 h2
    injection h1 with h1
    set vb := validators.foldl (fun m v => assocInsert m (pyStr v.mentor_id) v) []
      with hvbdef
    obtain ⟨hlenj, hgetj⟩ := buildJobs_get prompts vb jobs hb
    have hvbprop : ∀ k v, assocFind vb k = some v → pyStr v.mentor_id = k := by
      intro k v h
      exact vbyid_prop validators [] (fun k' v' h' => Option.noConfusion h') k v h
    have hjobs : ∀ j item validator, jobs.get? j = some (item, validator) →
        assocFind vb (pyStr item.mentor_id) = some validator := by
      intro j item validator hj
      rw [hgetj j] at hj
      cases hpj : prompts.get? j with
      | none =>
        rw [hpj] at hj
        exact Option.noConfusion hj
      | some q =>
        rw [hpj] at hj
        dsimp only [Option.bind] at hj
        cases hfq : assocFind vb (pyStr q.mentor_id) with
        | none =>
          rw [hfq] at hj
          exact Option.noConfusion hj
        | some v' =>
          rw [hfq] at hj
          dsimp only [Option.map] at hj
          injection hj with hj
          injection hj with hj1 hj2
          subst hj1
          subst hj2
          exact hfq
    constructor
    · rw [← h1]
      simp
    · intro i p hp
      have hcardi : cards.get? i = some ((assocFind (order.foldl
          (fillStep jobs vb provider api_key gens crash retry) ([], st₀)).1
          (pyStr p.mentor_id)).getD Json.null) := by
        rw [← h1, List.get?_map, List.get?_map, hp]
        rfl
      have hi : i < prompts.length := by
        rcases List.get?_eq_some.mp hp with ⟨h, -⟩
        exact h
      have hjget : ∃ vi, jobs.get? i = some (p, vi) := by
        cases hfv : assocFind vb (pyStr p.mentor_id) with
        | none =>
          have hnone : jobs.get? i = none := by
            rw [hgetj i, hp]
            dsimp only [Option.bind]
            rw [hfv]
            rfl
          rw [List.get?_eq_none, hlenj] at hnone
          omega
        | some vi =>
          refine ⟨vi, ?_⟩
          rw [hgetj i, hp]
          dsimp only [Option.bind]
          rw [hfv]
          rfl
      obtain ⟨vi, hji⟩ := hjget
      have himem : i ∈ order := hperm.mem_iff.mpr (List.mem_range.mpr hi)
      have hpres := fillFold_present jobs vb provider api_key gens crash retry
        order ([], st₀) i p vi himem hji
      obtain ⟨c, hcfind⟩ := Option.isSome_iff_exists.mp hpres
      obtain ⟨m, hm, hpm⟩ := fillFold_inv jobs vb provider api_key gens crash retry
        hvbprop hjobs order ([], st₀) (fun k c h => Option.noConfusion h)
        (pyStr p.mentor_id) c hcfind
      refine ⟨c, m, ?_, hm, hpm⟩
      rw [hcardi, hcfind]
      rfl

theorem C8_order_preservation_witness :
    ∃ c m, [exGoodOut].get? 0 = some c ∧
      c.lookup "mentor_id" = some m ∧ pyStr m = pyStr exPrompt.mentor_id :=
  (C8_order_preservation [exPrompt] [exValidator] "gemini_http" true
      (fun _ => exGenFail) (fun _ => none) 1 [0]
      ⟨[("PROMPT-7", exGoodCard)], 0⟩ [exGoodOut] ⟨[("PROMPT-7", exGoodCard)], 0⟩
      (by decide) (by decide)).2
    0 exPrompt (by decide)

/-- `fill_cards` on a singleton batch whose validator matches the prompt's
mentor id reduces to a single `_fill_one` run. -/
theorem fill_cards_singleton (p : PromptItem) (v : Validator) (provider : String)
    (api_key : Bool) (gens : Nat → Nat → Except String String) (retry : Int)
    (st : FillState) (hid : pyStr v.mentor_id = pyStr p.mentor_id)
    (hc : ¬(provider = "gemini_http" ∧ ¬api_key)) :
    fill_cards [p] [v] provider api_key gens (fun _ => none) retry [0] st =
      (.ok [(_fill_one p v provider api_key (gens 0) retry st).1],
        (_fill_one p v provider api_key (gens 0) retry st).2) := by
  have hvb : ([v].foldl (fun m w => assocInsert m (pyStr w.mentor_id) w) []
      : List (String × Validator)) = [(pyStr v.mentor_id, v)] := rfl
  have hfind : assocFind [(pyStr v.mentor_id, v)] (pyStr p.mentor_id) = some v := by
    unfold assocFind
    rw [List.find?_cons_of_pos _ (by simp [hid])]
    rfl
  have hb : buildJobs [p] [(pyStr v.mentor_id, v)] = .ok [(p, v)] := by
    unfold buildJobs
    rw [hfind]
    rfl
  have hmain := @fill_cards_ok_eq [p] [v] provider api_key gens (fun _ => none)
    retry [0] st hc (by simp) [(p, v)] (by rw [hvb]; exact hb)
  rw [hmain, List.foldl_cons,
    fillStep_run [(p, v)] ([v].foldl (fun m w => assocInsert m (pyStr w.mentor_id) w) [])
      provider api_key gens (fun _ => none) retry ([], st) 0 rfl rfl,
    List.foldl_nil]
  simp only [List.map_cons, List.map_nil]
  rw [assocFind_insert_self]
  rfl

/-- C2 (counterexample): after a first singleton `fill_cards` run in which
every generation attempt fails, a second identical run issues zero external
calls but does not return a bit-identical card — the first run's card
carries the diagnostic `error` field, while the second run serves the clean
fallback that was persisted to the cache. -/
theorem C2_cache_idempotence_counterexample :
    (fill_cards [exPrompt] [exValidator] "gemini_http" true (fun _ => exGenFail)
        (fun _ => none) 1 [0]
        (fill_cards [exPrompt] [exValidator] "gemini_http" true (fun _ => exGenFail)
          (fun _ => none) 1 [0] exEmptyState).2).1 ≠
      (fill_cards [exPrompt] [exValidator] "gemini_http" true (fun _ => exGenFail)
        (fun _ => none) 1 [0] exEmptyState).1 ∧
    (fill_cards [exPrompt] [exValidator] "gemini_http" true (fun _ => exGenFail)
        (fun _ => none) 1 [0]
        (fill_cards [exPrompt] [exValidator] "gemini_http" true (fun _ => exGenFail)
          (fun _ => none) 1 [0] exEmptyState).2).2.calls =
      (fill_cards [exPrompt] [exValidator] "gemini_http" true (fun _ => exGenFail)
        (fun _ => none) 1 [0] exEmptyState).2.calls := by
  have hid : pyStr exValidator.mentor_id = pyStr exPrompt.mentor_id := by decide
  have hc : ¬("gemini_http" = "gemini_http" ∧ ¬(true : Bool)) := by simp
  have h1 := fill_cards_singleton exPrompt exValidator "gemini_http" true
    (fun _ => exGenFail) 1 exEmptyState hid hc
  rw [h1]
  have h2 := fill_cards_singleton exPrompt exValidator "gemini_http" true
    (fun _ => exGenFail) 1
    (_fill_one exPrompt exValidator "gemini_http" true ((fun _ => exGenFail) 0) 1
      exEmptyState).2 hid hc
  rw [h2]
  have ft := @fillOne_twice exPrompt exValidator "gemini_http" true
    ((fun _ => exGenFail) 0) ((fun _ => exGenFail) 0) 1 exEmptyState rfl
  have hall := @fillOne_all_fail exPrompt exValidator 1 exEmptyState
    ((fun _ => exGenFail) 0) (fun i => "boom" ++ toString i) (fun j => rfl) rfl
  have herr1 : (_fill_one exPrompt exValidator "gemini_http" true
      ((fun _ => exGenFail) 0) 1 exEmptyState).1.lookup "error"
      = some (.str ("boom" ++ toString ((max 0 (1 : Int)).toNat))) := by
    rw [hall]
    exact (objSet_err_mid_lookup _ _ _).1
  obtain ⟨hval2, herr2⟩ := ft.2.2 (by rw [herr1]; exact fun h => Option.noConfusion h)
  constructor
  · intro h
    injection h with h
    injection h with h h'
    rw [← h] at herr1
    rw [herr2] at herr1
    exact Option.noConfusion herr1
  · rw [ft.1]

/-- C2 (amended): re-running the singleton pipeline with the same prompt and
validator issues zero external calls (the pipeline state, including the call
counter, is unchanged) and serves the cached card; the second run's output
is bit-identical to the first exactly when the first run's card carried no
diagnostic `error` field — after a fully failed first run, the second run
instead returns the clean re-validated fallback without the `error` field. -/
theorem C2_cache_idempotence :
    ∀ (p : PromptItem) (v : Validator) (provider : String) (api_key : Bool)
      (gens gens' : Nat → Nat → Except String String) (retry : Int) (st : FillState),
      pyStr v.mentor_id = pyStr p.mentor_id →
      ¬(provider = "gemini_http" ∧ api_key = false) →
      assocFind st.cache (fingerprint p.prompt_for_llm) = none →
      (fill_cards [p] [v] provider api_key gens' (fun _ => none) retry [0]
          (fill_cards [p] [v] provider api_key gens (fun _ => none) retry [0] st).2).2 =
        (fill_cards [p] [v] provider api_key gens (fun _ => none) retry [0] st).2 ∧
      (∀ c, (fill_cards [p] [v] provider api_key gens (fun _ => none) retry [0] st).1
          = .ok [c] → c.lookup "error" = none →
        (fill_cards [p] [v] provider api_key gens' (fun _ => none) retry [0]
            (fill_cards [p] [v] provider api_key gens (fun _ => none) retry [0] st).2).1 =
          (fill_cards [p] [v] provider api_key gens (fun _ => none) retry [0] st).1) ∧
      (∀ c, (fill_cards [p] [v] provider api_key gens (fun _ => none) retry [0] st).1
          = .ok [c] → c.lookup "error" ≠ none →
        ∃ c', (fill_cards [p] [v] provider api_key gens' (fun _ => none) retry [0]
            (fill_cards [p] [v] provider api_key gens (fun _ => none) retry [0] st).2).1
            = .ok [c'] ∧
          _validate_card (_fallback_card v) v = .ok c' ∧
          c'.lookup "error" = none) := by
  intro p v provider api_key gens gens' retry st hid hcc hmiss
  have hc : ¬(provider = "gemini_http" ∧ ¬api_key) := by
    intro hx
    apply hcc
    refine ⟨hx.1, ?_⟩
    cases api_key
    · rfl
    · exact absurd rfl hx.2
  have h1 := fill_cards_singleton p v provider api_key gens retry st hid hc
  rw [h1]
  have h2 := fill_cards_singleton p v provider api_key gens' retry
    (_fill_one p v provider api_key (gens 0) retry st).2 hid hc
  rw [h2]
  have ft := @fillOne_twice p v provider api_key (gens 0) (gens' 0) retry st hmiss
  refine ⟨ft.1, ?_, ?_⟩
  · intro c hok herr
    injection hok with hok
    injection hok with hok hok'
    rw [ft.2.1 (by rw [hok]; exact herr)]
  · intro c hok herr
    injection hok with hok
    injection hok with hok hok'
    obtain ⟨hval2, herr2⟩ := ft.2.2 (by rw [hok]; exact herr)
    exact ⟨(_fill_one p v provider api_key (gens' 0) retry
        (_fill_one p v provider api_key (gens 0) retry st).2).1, rfl, hval2, herr2⟩

theorem C2_cache_idempotence_witness :
    (fill_cards [exPrompt] [exValidator] "gemini_http" true (fun _ => exGenFail)
        (fun _ => none) 1 [0]
        (fill_cards [exPrompt] [exValidator] "gemini_http" true (fun _ => exGenFail)
          (fun _ => none) 1 [0] exEmptyState).2).2 =
      (fill_cards [exPrompt] [exValidator] "gemini_http" true (fun _ => exGenFail)
        (fun _ => none) 1 [0] exEmptyState).2 :=
  (C2_cache_idempotence exPrompt exValidator "gemini_http" true (fun _ => exGenFail)
      (fun _ => exGenFail) 1 exEmptyState (by decide) (by simp) rfl).1

/- ### C9: lock-machine properties -/

/-- The per-fingerprint lock invariant: a worker sits at a lock-holding
program counter exactly when it is the registered holder. -/
def lockInv (s : LockState) : Prop :=
  (s.lockHolder = some false ↔ holdsLock s.pcA = true) ∧
  (s.lockHolder = some true ↔ holdsLock s.pcB = true)

set_option maxHeartbeats 1600000 in
/-- Every step of the lock machine preserves the lock invariant. -/
theorem lockStep_inv {s s' : LockState} {w : Bool} (hinv : lockInv s)
    (h : lockStep s w = some s') : lockInv s' := by
  obtain ⟨h1, h2⟩ := hinv
  cases w
  all_goals simp only [lockStep] at h
  all_goals repeat' split at h
  all_goals try contradiction
  all_goals injection h with h
  all_goals subst h
  all_goals constructor
  all_goals simp_all [holdsLock]

/-- The lock invariant holds in every state reachable by a schedule. -/
theorem lockRun_inv :
    ∀ (sched : List Bool) (s₀ s : LockState), lockInv s₀ →
      lockRun sched s₀ = some s → lockInv s := by
  intro sched
  induction sched with
  | nil =>
    intro s₀ s h0 h
    injection h with h
    subst h
    exact h0
  | cons w rest ih =>
    intro s₀ s h0 h
    unfold lockRun at h
    cases hstep : lockStep s₀ w with
    | none =>
      rw [hstep] at h
      exact Option.noConfusion h
    | some s₁ =>
      rw [hstep] at h
      exact ih s₁ s (lockStep_inv h0 hstep) h

/-- C9 (counterexample): a schedule in which both workers pass the cache
check (finding it cold) before either performs the external call runs the
two-worker model to completion with `calls = 2`: the per-fingerprint lock is
released before the external generator call, so two workers with the same
fingerprint can both issue it, refuting the claim that the lock prevents
duplicate external calls for identical prompts. -/
theorem C9_lock_counterexample :
    lockRun [false, false, false, true, true, true, false, true, false, false, false,
        true, true, true] lockInit =
      some (⟨none, 7, 7, true, 2⟩ : LockState) := by
  decide

/-- C9 (amended): the per-fingerprint lock machine guarantees mutual
exclusion of the lock-protected sections — in every reachable state the two
workers are never simultaneously at lock-holding program counters (the cache
read-check and the cache write are serialized), and a worker at a
lock-holding counter is the registered holder; the external generator call
itself, however, runs outside the lock. -/
theorem C9_lock_mutual_exclusion :
    ∀ (sched : List Bool) (s : LockState),
      lockRun sched lockInit = some s →
      ¬(holdsLock s.pcA = true ∧ holdsLock s.pcB = true) ∧
      (holdsLock s.pcA = true → s.lockHolder = some false) ∧
      (holdsLock s.pcB = true → s.lockHolder = some true) := by
  intro sched s h
  have hinv := lockRun_inv sched lockInit s
    (by constructor <;> simp [holdsLock, lockInit]) h
  obtain ⟨h1, h2⟩ := hinv
  refine ⟨?_, fun hA => h1.mpr hA, fun hB => h2.mpr hB⟩
  rintro ⟨hA, hB⟩
  have hfA := h1.mpr hA
  have hfB := h2.mpr hB
  rw [hfA] at hfB
  injection hfB with hfB
  exact Bool.noConfusion hfB

theorem C9_lock_mutual_exclusion_witness :
    ¬(holdsLock (7 : Nat) = true ∧ holdsLock (7 : Nat) = true) :=
  (C9_lock_mutual_exclusion [false, false, false, true, true, true, false, true,
      false, false, false, true, true, true] (⟨none, 7, 7, true, 2⟩ : LockState)
      (by decide)).1
